import Mathlib

set_option autoImplicit false

/-! # go-bugzilla-rest: the update builder

A shallow embedding of `bugzilla.go`: the entity model, the change model, the
builder of the partial update (`Client.Update`) and the transport functions it
calls (`collect`, `fetch`, `put`, `GetBugEx`).

Conventions of the embedding.

* Go `int` is `Int`; no arithmetic is done on the identifiers.
* A Go `error` is a value of `GoError`; the wrapper types of the package are
  constructors around the wrapped error.
* A function returning `(T, error)` returns `Except GoError T`; a function that
  can also fault at run time (index out of range, nil dereference) returns
  `Outcome T`.
* A function that talks to the HTTP client returns the list of calls it made,
  in order, together with its outcome.
* What the Go standard library does (URL parsing, JSON decoding, the text of
  `%v`, the case tables of `unicode`) is a field of `Lib`; the request body is
  the JSON document that `json.Marshal` builds from the struct tags of `updBug`.
* A Go string is a `String`, a sequence of runes, as text in UTF-8 is;
  `strings.ToLower` is `unicode.ToLower` on each rune.
-/

namespace Bugzilla

/-! ## Errors -/

/-- The error values of the package: the five wrapper types around an error,
and `errorString` for an error made by `fmt.Errorf` or by a library. -/
inductive GoError where
  | RequestError (inner : GoError)
  | BugzillaError (inner : GoError)
  | ConnectionError (inner : GoError)
  | DecodeErrror (inner : GoError)
  | ErrBugzilla (inner : GoError)
  | errorString (msg : String)
  deriving DecidableEq, Repr

/-- The `Error()` method of each error type. -/
def GoError.Error : GoError → String
  | .RequestError e => "cannot build request: " ++ e.Error
  | .BugzillaError e => "Bugzilla: " ++ e.Error
  | .ConnectionError e => "cannot communicate with server: " ++ e.Error
  | .DecodeErrror e => "Error decoding response: " ++ e.Error
  | .ErrBugzilla e => "Error from Bugzilla: " ++ e.Error
  | .errorString msg => msg

/-- Result of a call that may return a value, return an error, or fault. -/
inductive Outcome (α : Type) where
  | ok (a : α)
  | error (e : GoError)
  | panic (msg : String)
  deriving Repr

/-- Containment of `sub` in `s`, as `strings.Contains` and an unanchored
regular expression of a literal decide it. -/
def Contains (s sub : String) : Prop := sub.data <:+: s.data

instance (s sub : String) : Decidable (Contains s sub) := by
  unfold Contains; infer_instance

/-! ## Time -/

/-- A `time.Time` without monotonic reading (every time decoded from JSON is
one): the seconds since January 1 of year 1 UTC, the nanoseconds within the
second, and the location, given by its offset east of UTC in seconds. -/
structure Time where
  sec : Int := 0
  nsec : Nat := 0
  loc : Int := 0
  deriving DecidableEq, Repr

/-- The method `Time.Equal`: the two times are the same instant; the locations
are not compared. The branch of the source for two monotonic readings is
never taken here, the fetched time having none. -/
def Time.Equal (t u : Time) : Bool := t.sec == u.sec && t.nsec == u.nsec

/-! ## Entity model -/

abbrev Bytes := List Nat

structure User where
  Id : Int := 0
  Name : String := ""
  Email : String := ""
  RealName : String := ""
  deriving DecidableEq, Repr

structure Flag where
  Name : String := ""
  ID : Int := 0
  TypeID : Int := 0
  Status : String := ""
  Setter : String := ""
  Requestee : String := ""
  CreationDate : Time := {}
  ModificationDate : Time := {}
  deriving DecidableEq, Repr

structure Attachment where
  ID : Int := 0
  BugId : Int := 0
  Creator : String := ""
  Data : Bytes := []
  IsObsolete : Int := 0
  IsPatch : Int := 0
  IsPrivate : Int := 0
  CreationTime : Time := {}
  LastChangeTime : Time := {}
  ContentType : String := ""
  Summary : String := ""
  Filename : String := ""
  Size : Int := 0
  Token : String := ""
  Flags : List Flag := []
  deriving DecidableEq, Repr

structure Comment where
  ID : Int := 0
  BugID : Int := 0
  AttachmentID : Option Int := none
  Count : Int := 0
  Text : String := ""
  Creator : String := ""
  Time : Bugzilla.Time := {}
  CreationTime : Bugzilla.Time := {}
  IsPrivate : Bool := false
  deriving DecidableEq, Repr

/-- The bug record. The fields of the Go struct that no function of the
package reads (the floating point times, the detail records, the custom
fields) are left out. -/
structure Bug where
  Alias : List String := []
  AssignedTo : String := ""
  CC : List String := []
  Flags : List Flag := []
  ID : Int := 0
  LastChangeTime : Time := {}
  Priority : String := ""
  Resolution : String := ""
  Status : String := ""
  Summary : String := ""
  URL : String := ""
  Whiteboard : String := ""
  Attachments : List Attachment := []
  Comments : List Comment := []
  deriving DecidableEq, Repr

structure Fault where
  code : Int := 0
  message : String := ""
  deriving DecidableEq, Repr

structure responseError where
  Code : Option Int := none
  Documentation : Option String := none
  Error : Option Bool := none
  Message : Option String := none
  deriving DecidableEq, Repr

structure bugsResult where
  Faults : List Fault := []
  Bugs : List Bug := []
  deriving DecidableEq, Repr

structure commentsResult where
  Bugs : List (String × List (String × List Comment)) := []
  deriving Repr

structure bugAttachmentsResult where
  Bugs : List (String × List Attachment) := []
  deriving Repr

/-! ## Change model -/

/-- The table `PriorityMap`, as the lookup `PriorityMap[key]` with its `ok`. -/
def PriorityMap (key : String) : Option String :=
  if key = "P0" then some "P0 - Crit Sit"
  else if key = "P1" then some "P1 - Urgent"
  else if key = "P2" then some "P2 - High"
  else if key = "P3" then some "P3 - Medium"
  else if key = "P4" then some "P4 - Low"
  else if key = "P5" then some "P5 - None"
  else none

structure Changes where
  SetNeedinfo : String := ""
  RemoveNeedinfo : String := ""
  ClearNeedinfo : Bool := false
  ClearAllNeedinfos : Bool := false
  ClearMyNeedinfos : Bool := false
  AddComment : String := ""
  CommentIsPrivate : Bool := false
  SetURL : String := ""
  SetAssignee : String := ""
  SetPriority : String := ""
  SetDescription : String := ""
  SetWhiteboard : String := ""
  SetStatus : String := ""
  SetResolution : String := ""
  SetDuplicate : Int := 0
  AddCc : String := ""
  RemoveCc : String := ""
  CcMyself : Bool := false
  DeltaTS : Time := {}
  CheckDeltaTS : Bool := false
  deriving DecidableEq, Repr

structure ChangeEntry where
  Added : String := ""
  Removed : String := ""
  deriving DecidableEq, Repr

structure UpdateResponse where
  Alias : List String := []
  Changes : List (String × ChangeEntry) := []
  Id : Int := 0
  LastChangeTime : Time := {}
  deriving DecidableEq, Repr

structure updateResponse where
  Bugs : List UpdateResponse := []
  deriving DecidableEq, Repr

/-! ## Wire update -/

structure updOp where
  Add : List String := []
  Remove : List String := []
  Set : List String := []
  deriving DecidableEq, Repr

def updOp.AddOp (u : updOp) (what : String) : updOp := { u with Add := u.Add ++ [what] }

def updOp.RemoveOp (u : updOp) (what : String) : updOp := { u with Remove := u.Remove ++ [what] }

def updOp.SetOp (u : updOp) (what : String) : updOp := { u with Set := u.Set ++ [what] }

structure flagChange where
  Name : String := ""
  TypeID : Int := 0
  Status : String := ""
  Requestee : String := ""
  ID : Int := 0
  New : Bool := false
  deriving DecidableEq, Repr

structure commentChange where
  Body : String := ""
  IsPrivate : Bool := false
  deriving DecidableEq, Repr

structure updBug where
  Ids : List Int := []
  Alias : List updOp := []
  Blocks : List updOp := []
  CC : Option updOp := none
  CCDetail : List updOp := []
  DependsOn : List updOp := []
  Flags : List flagChange := []
  Groups : List updOp := []
  Keywords : List updOp := []
  SeeAlso : List updOp := []
  IsCCAccessible : Option Bool := none
  IsCreatorAccessible : Option Bool := none
  ResetAssignedTo : Option Bool := none
  ResetQaContact : Option Bool := none
  AssignedTo : Option String := none
  Comment : Option commentChange := none
  Classification : Option String := none
  Component : Option String := none
  DupeOf : Int := 0
  OpSys : Option String := none
  Platform : Option String := none
  Priority : Option String := none
  Product : Option String := none
  QAContact : Option String := none
  Resolution : Option String := none
  Severity : Option String := none
  Status : Option String := none
  Summary : Option String := none
  TargetMilestone : Option String := none
  URL : Option String := none
  Version : Option String := none
  Whiteboard : Option String := none
  deriving DecidableEq, Repr

def newBugUpdate : updBug := { Ids := [] }

def updBug.AddFlagChange (u : updBug) (flag : flagChange) : updBug :=
  { u with Flags := u.Flags ++ [flag] }

/-- The method `initUpdOp`: the operation record behind the pointer, fresh
when the pointer is nil. -/
def updBug.initUpdOp (target : Option updOp) : updOp :=
  match target with
  | none => {}
  | some op => op

def updBug.AddCC (u : updBug) (email : String) : updBug :=
  { u with CC := some ((updBug.initUpdOp u.CC).AddOp email) }

def updBug.RemoveCC (u : updBug) (email : String) : updBug :=
  { u with CC := some ((updBug.initUpdOp u.CC).RemoveOp email) }

/-! ## The request body -/

/-- A JSON document. -/
inductive Json where
  | null
  | bool (b : Bool)
  | num (n : Int)
  | str (s : String)
  | arr (items : List Json)
  | obj (members : List (String × Json))

/-- A string member tagged `omitempty`. -/
def omitStr (key : String) (s : String) : List (String × Json) :=
  if s = "" then [] else [(key, Json.str s)]

/-- An integer member tagged `omitempty`. -/
def omitInt (key : String) (n : Int) : List (String × Json) :=
  if n = 0 then [] else [(key, Json.num n)]

/-- A boolean member tagged `omitempty`. -/
def omitBool (key : String) (b : Bool) : List (String × Json) :=
  if b then [(key, Json.bool true)] else []

/-- A slice member tagged `omitempty`. -/
def omitList (key : String) (items : List Json) : List (String × Json) :=
  if items.isEmpty then [] else [(key, Json.arr items)]

/-- A pointer member tagged `omitempty`. -/
def omitPtr (key : String) (p : Option Json) : List (String × Json) :=
  match p with
  | none => []
  | some v => [(key, v)]

def updOp.toJson (u : updOp) : Json :=
  Json.obj (omitList "add" (u.Add.map Json.str) ++ omitList "remove" (u.Remove.map Json.str)
    ++ omitList "set" (u.Set.map Json.str))

def flagChange.toJson (f : flagChange) : Json :=
  Json.obj (omitStr "name" f.Name ++ omitInt "type_id" f.TypeID ++ [("status", Json.str f.Status)]
    ++ omitStr "requestee" f.Requestee ++ omitInt "id" f.ID ++ omitBool "new" f.New)

def commentChange.toJson (c : commentChange) : Json :=
  Json.obj [("body", Json.str c.Body), ("is_private", Json.bool c.IsPrivate)]

/-- The document `json.Marshal` builds from an `updBug`, member by member in
the order of the struct, following the `json` tags. -/
def updBug.toJson (u : updBug) : Json :=
  Json.obj ([("ids", Json.arr (u.Ids.map Json.num))]
    ++ omitList "alias" (u.Alias.map updOp.toJson)
    ++ omitList "blocks" (u.Blocks.map updOp.toJson)
    ++ omitPtr "cc" (u.CC.map updOp.toJson)
    ++ omitList "cc_detail" (u.CCDetail.map updOp.toJson)
    ++ omitList "depends_on" (u.DependsOn.map updOp.toJson)
    ++ omitList "flags" (u.Flags.map flagChange.toJson)
    ++ omitList "groups" (u.Groups.map updOp.toJson)
    ++ omitList "keywords" (u.Keywords.map updOp.toJson)
    ++ omitList "see_also" (u.SeeAlso.map updOp.toJson)
    ++ omitPtr "is_cc_accessible" (u.IsCCAccessible.map Json.bool)
    ++ omitPtr "is_creator_accessible" (u.IsCreatorAccessible.map Json.bool)
    ++ omitPtr "reset_assigned_to" (u.ResetAssignedTo.map Json.bool)
    ++ omitPtr "reset_qa_contact" (u.ResetQaContact.map Json.bool)
    ++ omitPtr "assigned_to" (u.AssignedTo.map Json.str)
    ++ omitPtr "comment" (u.Comment.map commentChange.toJson)
    ++ omitPtr "classification" (u.Classification.map Json.str)
    ++ omitPtr "component" (u.Component.map Json.str)
    ++ omitInt "dupe_of" u.DupeOf
    ++ omitPtr "op_sys" (u.OpSys.map Json.str)
    ++ omitPtr "platform" (u.Platform.map Json.str)
    ++ omitPtr "priority" (u.Priority.map Json.str)
    ++ omitPtr "product" (u.Product.map Json.str)
    ++ omitPtr "qa_contact" (u.QAContact.map Json.str)
    ++ omitPtr "resolution" (u.Resolution.map Json.str)
    ++ omitPtr "severity" (u.Severity.map Json.str)
    ++ omitPtr "status" (u.Status.map Json.str)
    ++ omitPtr "summary" (u.Summary.map Json.str)
    ++ omitPtr "target_milestone" (u.TargetMilestone.map Json.str)
    ++ omitPtr "url" (u.URL.map Json.str)
    ++ omitPtr "version" (u.Version.map Json.str)
    ++ omitPtr "whiteboard" (u.Whiteboard.map Json.str))

/-! ## Library and transport -/

/-- A parsed `url.URL`: the two fields `makeURL` assigns and the rest. -/
structure URL where
  Path : String := ""
  RawQuery : String := ""
  Rest : String := ""
  deriving DecidableEq, Repr

/-- What the response of the HTTP client is: no response and an error, or a
response with its status code and its body stream (the bytes it delivers and
the error, if any, that ends it). -/
inductive RoundTrip where
  | failed (err : GoError)
  | response (StatusCode : Int) (Body : Bytes) (BodyErr : Option GoError)

structure Request where
  Method : String
  URL : String
  Body : Json

/-- The `http.Client` of the client. -/
structure HTTPClient where
  Get : String → RoundTrip
  Do : Request → RoundTrip

/-- The functions of the Go standard library the package calls. -/
structure Lib where
  /-- The function `url.Parse`. -/
  urlParse : String → Except GoError URL
  /-- The method `URL.String`. -/
  urlString : URL → String
  /-- The function `path.Join`. -/
  pathJoin : String → String → String
  /-- The method `Values.Encode`, on the pairs in the order they were added. -/
  valuesEncode : List (String × String) → String
  /-- The error of `http.NewRequest` for a method and a URL, if any. -/
  NewRequest : String → String → Option GoError
  /-- The function `http.StatusText`. -/
  StatusText : Int → String
  /-- The function `json.Unmarshal` into a `bugsResult`. -/
  unmarshalBugs : Bytes → Except GoError bugsResult
  /-- The function `json.Unmarshal` into a `commentsResult`. -/
  unmarshalComments : Bytes → Except GoError commentsResult
  /-- The function `json.Unmarshal` into a `bugAttachmentsResult`. -/
  unmarshalBugAttachments : Bytes → Except GoError bugAttachmentsResult
  /-- The function `json.Unmarshal` into an `updateResponse`. -/
  unmarshalUpdate : Bytes → Except GoError updateResponse
  /-- The function `json.Unmarshal` into a `responseError`. -/
  unmarshalError : Bytes → Except GoError responseError
  /-- The function `json.Marshal` of a bug. -/
  marshalBug : Bug → Except GoError Bytes
  /-- The text of a time under the verb `%v`. -/
  timeString : Time → String
  /-- The text of a list of update responses under the verb `%v`. -/
  fmtUpdateResponses : List UpdateResponse → String
  /-- The text `fmt` produces for a format that has verbs and no operand. -/
  formatVerbs : String → String
  /-- The call `unicode.To(unicode.LowerCase, r)`: the lower case of a rune in
  the case tables of the library. -/
  toLowerCase : Char → Char

/-- The call `fmt.Errorf(format)` with no operand: the format itself unless it
has a percent sign. -/
def Errorf (L : Lib) (format : String) : GoError :=
  GoError.errorString (if '%' ∈ format.data then L.formatVerbs format else format)

/-- The function `unicode.ToLower`: a rune of ASCII is moved to lower case when
it is one of `A`..`Z` and kept otherwise; a rune above `unicode.MaxASCII` is
looked up in the case tables. -/
def unicodeToLower (L : Lib) (r : Char) : Char :=
  if r.toNat ≤ 0x7F then
    if 'A'.toNat ≤ r.toNat ∧ r.toNat ≤ 'Z'.toNat then Char.ofNat (r.toNat + ('a'.toNat - 'A'.toNat))
    else r
  else L.toLowerCase r

/-- The function `strings.ToLower`: `unicode.ToLower` on every rune of the
string, which is what its shortcut for ASCII text computes too. -/
def ToLower (L : Lib) (s : String) : String := String.mk (s.data.map (unicodeToLower L))

/-- The loop body of `findNeedinfosFor`. -/
def findNeedinfosStep (L : Lib) (lowerEmail : String) (ids : List Int) (flag : Flag) : List Int :=
  if flag.Name = "needinfo" then
    if lowerEmail = "" ∨ ToLower L flag.Requestee = lowerEmail then ids ++ [flag.ID] else ids
  else ids

/-- The method `findNeedinfosFor`: the ids of the needinfos for a given email. -/
def Bug.findNeedinfosFor (L : Lib) (b : Bug) (email : String) : List Int :=
  b.Flags.foldl (findNeedinfosStep L (ToLower L email)) []

/-- The method `hasNeedinfoFor`. -/
def Bug.hasNeedinfoFor (L : Lib) (b : Bug) (email : String) : Bool :=
  decide ((b.findNeedinfosFor L email).length > 0)

/-- A call the client makes to its collaborators: `fetch` of a URL, `put` of
a body to a URL, and a write of the cache sink. An event stands for the call
of the method: a `put` is recorded when `Client.put` is entered, before
`http.NewRequest` looks at the URL. -/
inductive Event where
  | fetch (url : String)
  | put (url : String) (body : Json)
  | cache (id : String) (data : Bytes)

structure Config where
  BaseURL : String := ""
  Username : String := ""
  ApiKey : String := ""
  /-- Whether a `Cacher` is configured. -/
  Cacher : Bool := false

/-- The method `emailAddress`. -/
def Config.emailAddress (c : Config) : Except GoError String :=
  let email := c.Username
  if ¬ '@' ∈ email.data then
    .error (.ErrBugzilla (.errorString
      ("Your username doesn\x27t look like an email address: " ++ email)))
  else .ok email

structure Client where
  Config : Config
  seriousClient : HTTPClient
  /-- Whether the cacher of the client is set. -/
  cacher : Bool := false

/-- The function `New`; the HTTP client, which the source builds from the
default transport, is given. -/
def New (config : Config) (httpClient : HTTPClient) : Client :=
  { Config := config, seriousClient := httpClient, cacher := config.Cacher }

/-! ## URLs -/

def Client.addAuthOptions (c : Client) (values : List (String × String)) : List (String × String) :=
  values ++ [("Bugzilla_api_key", c.Config.ApiKey)]

def Client.makeURL (L : Lib) (c : Client) (base_path : String) (values : List (String × String)) :
    Except GoError String :=
  match L.urlParse c.Config.BaseURL with
  | .error err => .error (.RequestError err)
  | .ok url =>
    let values := c.addAuthOptions values
    let url := { url with RawQuery := L.valuesEncode values }
    let url := { url with Path := L.pathJoin url.Path base_path }
    .ok (L.urlString url)

def valuesFromBugIds (ids : List Int) : Except GoError (Int × List (String × String)) :=
  match ids with
  | [] => .error (.errorString "Not enough IDs passed to getCommentsURL")
  | first :: _ => .ok (first, ids.map (fun id => ("ids", toString id)))

def Client.getCommentsURL (L : Lib) (c : Client) (bugIds : List Int) (params : List (String × String)) :
    Except GoError String :=
  match valuesFromBugIds bugIds with
  | .error err => .error err
  | .ok (first, values) => c.makeURL L ("/rest/bug/" ++ toString first ++ "/comment") (values ++ params)

def Client.getAttachmentsURL (L : Lib) (c : Client) (bugIds : List Int) (params : List (String × String)) :
    Except GoError String :=
  match valuesFromBugIds bugIds with
  | .error err => .error err
  | .ok (first, values) => c.makeURL L ("/rest/bug/" ++ toString first ++ "/attachment") (values ++ params)

def Client.getBugsURL (L : Lib) (c : Client) (ids : List Int) (params : List (String × String)) :
    Except GoError String :=
  match valuesFromBugIds ids with
  | .error err => .error err
  | .ok (first, values) => c.makeURL L ("/rest/bug/" ++ toString first) (values ++ params)

def Client.getUpdateBugsURL (L : Lib) (c : Client) (ids : List Int) (params : List (String × String)) :
    Except GoError String :=
  c.getBugsURL L ids params

/-! ## Decoding and encoding -/

def Client.decodeBugs (L : Lib) (data : Bytes) : Except GoError (List Bug) :=
  match L.unmarshalBugs data with
  | .error err => .error (.DecodeErrror err)
  | .ok result => .ok result.Bugs

def Client.decodeUpdateResponse (L : Lib) (data : Bytes) : Except GoError (List UpdateResponse) :=
  match L.unmarshalUpdate data with
  | .error err => .error (.ConnectionError err)
  | .ok result => .ok result.Bugs

/-- The method `encodeUpdate`; `json.Marshal` has no error on an `updBug`. -/
def Client.encodeUpdate (update : updBug) : Except GoError Json :=
  .ok update.toJson

/-- The loop body of `decodeComments`. -/
def decodeCommentsStep (result : commentsResult) (comments : List Comment) (forBug : Int) : List Comment :=
  match result.Bugs.lookup (toString forBug) with
  | none => comments
  | some bugDoc =>
    match bugDoc.lookup "comments" with
    | none => comments
    | some bugComments => comments ++ bugComments

def Client.decodeComments (L : Lib) (forBugs : List Int) (data : Bytes) : Except GoError (List Comment) :=
  match L.unmarshalComments data with
  | .error err => .error (.ConnectionError err)
  | .ok result => .ok (forBugs.foldl (decodeCommentsStep result) [])

/-- The loop body of `decodeAttachments`. -/
def decodeAttachmentsStep (result : bugAttachmentsResult) (attachments : List Attachment) (forBug : Int) :
    List Attachment :=
  match result.Bugs.lookup (toString forBug) with
  | none => attachments
  | some bugAttachments => attachments ++ bugAttachments

def Client.decodeAttachments (L : Lib) (data : Bytes) (forBugs : List Int) : Except GoError (List Attachment) :=
  match L.unmarshalBugAttachments data with
  | .error err => .error (.ConnectionError err)
  | .ok result => .ok (forBugs.foldl (decodeAttachmentsStep result) [])

/-- The method `cacheBugs`: the writes to the cache sink, one for each bug that
`json.Marshal` encodes. -/
def Client.cacheBugs (L : Lib) (c : Client) (bugs : List Bug) : List Event :=
  if c.cacher then
    bugs.foldl (fun events bug =>
      match L.marshalBug bug with
      | .ok b => events ++ [Event.cache (toString bug.ID) b]
      | .error _ => events) []
  else []

/-! ## Transport -/

/-- The method `attemptDecodingError`; it dereferences `result.Code` whenever
the message is present. -/
def Client.attemptDecodingError (L : Lib) (body : Bytes) : Outcome (String × Bool) :=
  match L.unmarshalError body with
  | .ok result =>
    match result.Message with
    | some message =>
      match result.Code with
      | some code => .ok ("[" ++ toString code ++ "] " ++ message, true)
      | none => .panic "invalid memory address or nil pointer dereference"
    | none => .ok ("", false)
  | .error _ => .ok ("", false)

/-- The read `ioutil.ReadAll` of the body behind the `io.LimitedReader`. -/
def readAllLimited (body : Bytes) (bodyErr : Option GoError) : Except GoError Bytes :=
  if body.length ≥ 10 * 1024 * 1024 then .ok (body.take (10 * 1024 * 1024))
  else
    match bodyErr with
    | some err => .error err
    | none => .ok body

/-- The method `collect`. The HTTP client gives a response or an error, so the
case of neither is not a `RoundTrip`. -/
def Client.collect (L : Lib) (rt : RoundTrip) : Outcome Bytes :=
  match rt with
  | .failed err => .error (.ConnectionError err)
  | .response StatusCode Body BodyErr =>
    match readAllLimited Body BodyErr with
    | .error err => .error (.ConnectionError err)
    | .ok body =>
      if ¬ (StatusCode ≥ 200 ∧ StatusCode ≤ 299) then
        match Client.attemptDecodingError L body with
        | .panic msg => .panic msg
        | .error err => .error err
        | .ok (msg, ok) =>
          if ok then .error (.BugzillaError (Errorf L msg))
          else .error (.BugzillaError (Errorf L (L.StatusText StatusCode)))
      else .ok body

/-- The method `fetch`: a GET of the URL, its response through `collect`. -/
def Client.fetch (L : Lib) (c : Client) (url : String) : List Event × Outcome Bytes :=
  ([Event.fetch url], Client.collect L (c.seriousClient.Get url))

/-- The method `put`: an error of `http.NewRequest` is returned as it is, the
response of the HTTP client goes through `collect`. -/
def Client.put (L : Lib) (c : Client) (url : String) (_content_type : String) (body : Json) :
    List Event × Outcome Bytes :=
  match L.NewRequest "PUT" url with
  | some err => ([Event.put url body], .error err)
  | none => ([Event.put url body],
      Client.collect L (c.seriousClient.Do { Method := "PUT", URL := url, Body := body }))

/-! ## Reading bugs -/

def Client.GetComments (L : Lib) (c : Client) (bugIds : List Int) : List Event × Outcome (List Comment) :=
  match c.getCommentsURL L bugIds [] with
  | .error err => ([], .error err)
  | .ok url =>
    match c.fetch L url with
    | (tr, .panic msg) => (tr, .panic msg)
    | (tr, .error err) => (tr, .error err)
    | (tr, .ok body) =>
      match Client.decodeComments L bugIds body with
      | .error err => (tr, .error err)
      | .ok comments => (tr, .ok comments)

def Client.GetAttachmentsInfo (L : Lib) (c : Client) (bugIds : List Int) :
    List Event × Outcome (List Attachment) :=
  match c.getAttachmentsURL L bugIds [("exclude_fields", "data")] with
  | .error err => ([], .error err)
  | .ok url =>
    match c.fetch L url with
    | (tr, .panic msg) => (tr, .panic msg)
    | (tr, .error err) => (tr, .error err)
    | (tr, .ok body) =>
      match Client.decodeAttachments L body bugIds with
      | .error err => (tr, .error err)
      | .ok attachments => (tr, .ok attachments)

/-- The comments of `GetBugEx`: fetched when asked for, empty otherwise; an
error of the fetch is wrapped in a `ConnectionError`. -/
def Client.bugComments (L : Lib) (c : Client) (id : Int) (withComments : Bool) :
    List Event × Outcome (List Comment) :=
  if withComments then
    match c.GetComments L [id] with
    | (tr, .error err) => (tr, .error (.ConnectionError err))
    | r => r
  else ([], .ok [])

/-- The attachments of `GetBugEx`, as `bugComments`. -/
def Client.bugAttachments (L : Lib) (c : Client) (id : Int) (withAttachments : Bool) :
    List Event × Outcome (List Attachment) :=
  if withAttachments then
    match c.GetAttachmentsInfo L [id] with
    | (tr, .error err) => (tr, .error (.ConnectionError err))
    | r => r
  else ([], .ok [])

/-- The method `GetBugEx`. Its last statement indexes `bugs[0]`. -/
def Client.GetBugEx (L : Lib) (c : Client) (id : Int) (withComments withAttachments : Bool) :
    List Event × Outcome Bug :=
  match c.getBugsURL L [id] [] with
  | .error err => ([], .error err)
  | .ok url =>
    match c.fetch L url with
    | (tr, .panic msg) => (tr, .panic msg)
    | (tr, .error err) => (tr, .error err)
    | (tr, .ok bugsBody) =>
      match Client.decodeBugs L bugsBody with
      | .error err => (tr, .error err)
      | .ok bugs =>
        match c.bugComments L id withComments with
        | (tr1, .panic msg) => (tr ++ tr1, .panic msg)
        | (tr1, .error err) => (tr ++ tr1, .error err)
        | (tr1, .ok comments) =>
          match c.bugAttachments L id withAttachments with
          | (tr2, .panic msg) => (tr ++ tr1 ++ tr2, .panic msg)
          | (tr2, .error err) => (tr ++ tr1 ++ tr2, .error err)
          | (tr2, .ok attachments) =>
            let bugs := bugs.map (fun b => { b with Comments := comments, Attachments := attachments })
            let events := tr ++ tr1 ++ tr2 ++ c.cacheBugs L bugs
            match bugs with
            | [] => (events, .panic "index out of range [0] with length 0")
            | bug :: _ => (events, .ok bug)

def Client.GetBug (L : Lib) (c : Client) (id : Int) : List Event × Outcome Bug :=
  c.GetBugEx L id true true

/-! ## Update -/

/-- The method `checkDeltaTS`; `none` is the nil error. -/
def Client.checkDeltaTS (L : Lib) (changes : Changes) (bug : Bug) : Option GoError :=
  if changes.CheckDeltaTS then
    if ¬ bug.LastChangeTime.Equal changes.DeltaTS then
      some (.ErrBugzilla (.errorString
        ("likely mid-air collision: the bug has been updated at " ++ L.timeString bug.LastChangeTime)))
    else none
  else none

/-- Lines 887-889 of `Update`: the comment. -/
def stepComment (changes : Changes) (up : updBug) : updBug :=
  if changes.AddComment ≠ "" then
    { up with Comment := some { Body := changes.AddComment, IsPrivate := changes.CommentIsPrivate } }
  else up

/-- Lines 890-899 of `Update`: the needinfo request. -/
def stepSetNeedinfo (L : Lib) (bug : Bug) (changes : Changes) (up : updBug) : updBug :=
  if changes.SetNeedinfo ≠ "" then
    if ¬ bug.hasNeedinfoFor L changes.SetNeedinfo then
      up.AddFlagChange { New := true, Name := "needinfo", Requestee := changes.SetNeedinfo, Status := "?" }
    else up
  else up

/-- Lines 900-908 of `Update`: the target of the needinfo clear. -/
def clearTarget (cfg : Config) (changes : Changes) : Except GoError String :=
  let target := changes.RemoveNeedinfo
  if changes.ClearMyNeedinfos then cfg.emailAddress
  else if changes.ClearNeedinfo then .ok ""
  else .ok target

/-- Lines 900-920 of `Update`: the needinfo clear. -/
def stepClearNeedinfo (L : Lib) (cfg : Config) (bug : Bug) (changes : Changes) (up : updBug) :
    Except GoError updBug :=
  if changes.RemoveNeedinfo ≠ "" ∨ changes.ClearNeedinfo = true then
    match clearTarget cfg changes with
    | .error err => .error err
    | .ok target =>
      let flagIds := bug.findNeedinfosFor L target
      if flagIds.length > 1 ∧ changes.ClearAllNeedinfos = false ∧ changes.RemoveNeedinfo = "" then
        .error (.RequestError (.errorString "More than one needinfo found"))
      else
        .ok (flagIds.foldl (fun u id => u.AddFlagChange { ID := id, Status := "X" }) up)
  else .ok up

/-- Lines 921-929 of `Update`: URL, assignee and description. -/
def stepFields (changes : Changes) (up : updBug) : updBug :=
  let up := if changes.SetURL ≠ "" then { up with URL := some changes.SetURL } else up
  let up := if changes.SetAssignee ≠ "" then { up with AssignedTo := some changes.SetAssignee } else up
  if changes.SetDescription ≠ "" then { up with Summary := some changes.SetDescription } else up

/-- Lines 930-937 of `Update`: the priority. -/
def stepPriority (changes : Changes) (up : updBug) : Except GoError updBug :=
  if changes.SetPriority ≠ "" then
    match PriorityMap changes.SetPriority with
    | none => .error (.ErrBugzilla (.errorString ("invalid priority value: " ++ changes.SetPriority)))
    | some prio => .ok { up with Priority := some prio }
  else .ok up

/-- Lines 938-951 of `Update`: the CC list. -/
def stepCc (cfg : Config) (changes : Changes) (up : updBug) : Except GoError updBug :=
  let up := if changes.AddCc ≠ "" then up.AddCC changes.AddCc else up
  let up := if changes.RemoveCc ≠ "" then up.RemoveCC changes.RemoveCc else up
  if changes.CcMyself then
    match cfg.emailAddress with
    | .error err => .error err
    | .ok email => .ok (up.AddCC email)
  else .ok up

/-- Lines 952-963 of `Update`: whiteboard, status, resolution and duplicate. -/
def stepStatus (changes : Changes) (up : updBug) : updBug :=
  let up := if changes.SetWhiteboard ≠ "" then { up with Whiteboard := some changes.SetWhiteboard } else up
  let up := if changes.SetStatus ≠ "" then { up with Status := some changes.SetStatus } else up
  let up := if changes.SetResolution ≠ "" then { up with Resolution := some changes.SetResolution } else up
  if changes.SetDuplicate ≠ 0 then { up with DupeOf := changes.SetDuplicate } else up

/-- Lines 884-963 of `Update`: the wire update built from the changes and the
fetched bug, or the error that ends `Update` before any write. -/
def Client.buildUpdate (L : Lib) (c : Client) (id : Int) (changes : Changes) (bug : Bug) :
    Except GoError updBug :=
  let up := newBugUpdate
  let up := { up with Ids := up.Ids ++ [id] }
  let up := stepComment changes up
  let up := stepSetNeedinfo L bug changes up
  match stepClearNeedinfo L c.Config bug changes up with
  | .error err => .error err
  | .ok up =>
    let up := stepFields changes up
    match stepPriority changes up with
    | .error err => .error err
    | .ok up =>
      match stepCc c.Config changes up with
      | .error err => .error err
      | .ok up => .ok (stepStatus changes up)

/-- Lines 965-988 of `Update`: the write of the wire update and the reading of
the acknowledgement. -/
def Client.submitUpdate (L : Lib) (c : Client) (id : Int) (up : updBug) : List Event × Outcome UpdateResponse :=
  match c.getUpdateBugsURL L [id] [] with
  | .error err => ([], .error err)
  | .ok url =>
    match Client.encodeUpdate up with
    | .error err => ([], .error err)
    | .ok updBody =>
      match c.put L url "application/json" updBody with
      | (tr, .panic msg) => (tr, .panic msg)
      | (tr, .error err) => (tr, .error err)
      | (tr, .ok resp) =>
        match Client.decodeUpdateResponse L resp with
        | .error err => (tr, .error err)
        | .ok updateResponses =>
          if updateResponses.length ≠ 1 then
            (tr, .error (.errorString
              ("Got an unexpected number of update responses: " ++ L.fmtUpdateResponses updateResponses)))
          else
            match updateResponses with
            | [] => (tr, .panic "index out of range [0] with length 0")
            | r :: _ => (tr, .ok r)

/-- The method `Update`. -/
def Client.Update (L : Lib) (c : Client) (id : Int) (changes : Changes) : List Event × Outcome UpdateResponse :=
  match c.GetBugEx L id false false with
  | (tr, .panic msg) => (tr, .panic msg)
  | (tr, .error err) => (tr, .error err)
  | (tr, .ok bug) =>
    match Client.checkDeltaTS L changes bug with
    | some err => (tr, .error err)
    | none =>
      match c.buildUpdate L id changes bug with
      | .error err => (tr, .error err)
      | .ok up =>
        match c.submitUpdate L id up with
        | (tr1, r) => (tr ++ tr1, r)

/-! ## The world of the tests

The bug that `bugsJson` of the tests holds, a library that decodes every bug
response to a given bug, and a server that answers every request with status
200, as the test server of `TestUpdateBug` does. -/

def testFlags : List Flag :=
  [ { Name := "needinfo", ID := 264343, TypeID := 4, Status := "?",
      Setter := "user1@foobarcorp.example.com", Requestee := "user1@foobarcorp.example.com" },
    { Name := "needinfo", ID := 266294, TypeID := 4, Status := "?",
      Setter := "user3@foobarcorp.example.com", Requestee := "user3@foobarcorp.example.com" },
    { Name := "needinfo", ID := 266299, TypeID := 4, Status := "?",
      Setter := "user3@foobarcorp.example.com", Requestee := "user3@foobarcorp.example.com" },
    { Name := "SHIP_STOPPER", ID := 201663, TypeID := 2, Status := "?",
      Setter := "user1@foobarcorp.example.com", Requestee := "user1@foobarcorp.example.com" },
    { Name := "CCB_Review", ID := 264345, TypeID := 3, Status := "+",
      Setter := "user2@foobarcorp.example.com" } ]

/-- The bug of `bugsJson`; its last change is 2023-04-12T01:02:03Z. -/
def testBug : Bug :=
  { AssignedTo := "user1@foobarcorp.example.com",
    CC := ["561726581864@foobarcorp.example.com", "user2@foobarcorp.example.com",
      "user1@foobarcorp.example.com", "user3@foobarcorp.example.com"],
    Flags := testFlags,
    ID := 1047068,
    LastChangeTime := { sec := 63816858123 },
    Priority := "P2 - High",
    Status := "REOPENED",
    Summary := "L4: test cloud bug123",
    URL := "https://xxxxxx.foobarcorp.example.com/incident/9999999" }

/-- The acknowledgement the test server sends for bug 101234. -/
def testAck : UpdateResponse :=
  { Id := 101234, LastChangeTime := { sec := 63819222785 } }

/-- The part of the case tables the tests need, the letters of Latin-1: the
runes U+00C0..U+00DE but the sign U+00D7 have their lower case 32 further. -/
def latin1Lower (r : Char) : Char :=
  if 0xC0 ≤ r.toNat ∧ r.toNat ≤ 0xDE ∧ r.toNat ≠ 0xD7 then Char.ofNat (r.toNat + 32) else r

/-- A library for the tests: every bug response decodes to `[bug]`, every
acknowledgement to `acks`. -/
def testLib (bug : Bug) (acks : List UpdateResponse) : Lib where
  urlParse := fun s => .ok { Rest := s }
  urlString := fun u => u.Rest ++ u.Path ++ "?" ++ u.RawQuery
  pathJoin := fun a b => a ++ b
  valuesEncode := fun vs => String.intercalate "&" (vs.map (fun kv => kv.1 ++ "=" ++ kv.2))
  NewRequest := fun _ _ => none
  StatusText := fun code =>
    if code = 400 then "Bad Request" else if code = 401 then "Unauthorized"
    else if code = 500 then "Internal Server Error" else ""
  unmarshalBugs := fun _ => .ok { Bugs := [bug] }
  unmarshalComments := fun _ => .ok {}
  unmarshalBugAttachments := fun _ => .ok {}
  unmarshalUpdate := fun _ => .ok { Bugs := acks }
  unmarshalError := fun _ => .error (.errorString "invalid character")
  marshalBug := fun _ => .ok []
  timeString := fun t => toString t.sec
  fmtUpdateResponses := fun rs => toString rs.length
  formatVerbs := fun s => s
  toLowerCase := latin1Lower

/-- The server of `makeBugzillaServerWithChannels`: status 200 on every
request. -/
def testServer : HTTPClient where
  Get := fun _ => .response 200 [] none
  Do := fun _ => .response 200 [] none

/-- The client of the tests, `makeClient`, with a given user name. -/
def makeClient (username : String) : Client :=
  New { BaseURL := "http://bz", Username := username, ApiKey := "xxxxxx" } testServer

/-- A bug whose only needinfo flag is not open: its status is `+`. -/
def answeredBug : Bug :=
  { ID := 1047068,
    LastChangeTime := { sec := 63816858123 },
    Flags := [{ Name := "needinfo", ID := 7, TypeID := 4, Status := "+",
                Setter := "user1@foobarcorp.example.com", Requestee := "user@foobar.com" }] }

/-- A bug whose only needinfo flag has a requestee written with a capital
letter outside ASCII. -/
def accentBug : Bug :=
  { ID := 1047068,
    LastChangeTime := { sec := 63816858123 },
    Flags := [{ Name := "needinfo", ID := 1, TypeID := 4, Status := "?",
                Setter := "user1@foobarcorp.example.com", Requestee := "É@x.com" }] }

/-- The URL of bug 101234 in the world of the tests. -/
def testURL : String := "http://bz/rest/bug/101234?ids=101234&Bugzilla_api_key=xxxxxx"

/-! ## Vocabulary of the statements -/

/-- The flags of a bug named needinfo. -/
def needinfoFlags (bug : Bug) : List Flag :=
  bug.Flags.filter (fun f => decide (f.Name = "needinfo"))

/-- The flags of a bug named needinfo whose requestee is `email`, once both
are in lower case as `strings.ToLower` puts them. -/
def needinfoFlagsOf (L : Lib) (bug : Bug) (email : String) : List Flag :=
  bug.Flags.filter
    (fun f => decide (f.Name = "needinfo" ∧ ToLower L f.Requestee = ToLower L email))

/-- The entry that clears the flag `id`. -/
def clearEntry (id : Int) : flagChange := { ID := id, Status := "X" }

/-- The entry that requests a needinfo from `email`. -/
def newNeedinfo (email : String) : flagChange :=
  { New := true, Name := "needinfo", Requestee := email, Status := "?" }

/-- The entries a needinfo request adds: the new needinfo when an email is
given and `hasNeedinfoFor` finds none for it. -/
def requestedEntries (L : Lib) (bug : Bug) (ch : Changes) : List flagChange :=
  if ch.SetNeedinfo ≠ "" ∧ bug.hasNeedinfoFor L ch.SetNeedinfo = false
    then [newNeedinfo ch.SetNeedinfo] else []

/-- The writes of a trace: the URL and body of every `put`, in order. -/
def writes : List Event → List (String × Json)
  | [] => []
  | Event.put url body :: rest => (url, body) :: writes rest
  | _ :: rest => writes rest

/-- The later steps of `Update` pass: the priority is absent or a key of the
table, and the user name is an email address when `CcMyself` needs it. -/
def laterStepsPass (cfg : Config) (ch : Changes) : Prop :=
  (ch.SetPriority = "" ∨ (PriorityMap ch.SetPriority).isSome = true)
    ∧ (ch.CcMyself = true → '@' ∈ cfg.Username.data)

instance (cfg : Config) (ch : Changes) : Decidable (laterStepsPass cfg ch) := by
  unfold laterStepsPass; infer_instance

/-- The entries of a wire update that clear a flag: those of status `X`. -/
def clearEntriesOf (up : updBug) : List flagChange :=
  up.Flags.filter (fun f => decide (f.Status = "X"))

/-- The error of the collision check for a fetched bug. -/
def collisionError (L : Lib) (bug : Bug) : GoError :=
  .ErrBugzilla (.errorString
    ("likely mid-air collision: the bug has been updated at " ++ L.timeString bug.LastChangeTime))

/-- The error of `emailAddress` for a user name that is no email address. -/
def usernameError (cfg : Config) : GoError :=
  .ErrBugzilla (.errorString
    ("Your username doesn\x27t look like an email address: " ++ cfg.Username))

/-- The error of an ambiguous needinfo clear. -/
def ambiguousError : GoError :=
  .RequestError (.errorString "More than one needinfo found")

/-- The error of a priority that is no key of the table. -/
def priorityError (ch : Changes) : GoError :=
  .ErrBugzilla (.errorString ("invalid priority value: " ++ ch.SetPriority))

/-- A string field tagged as absent when empty: the pointer `Update` sets. -/
def optStr (s : String) : Option String := if s = "" then none else some s

/-- The comment `Update` attaches for the changes. -/
def commentOf (ch : Changes) : Option commentChange :=
  if ch.AddComment = "" then none
  else some { Body := ch.AddComment, IsPrivate := ch.CommentIsPrivate }

/-- The priority `Update` sends for the changes. -/
def priorityOf (ch : Changes) : Option String :=
  if ch.SetPriority = "" then none else PriorityMap ch.SetPriority

/-- The addresses `Update` adds to the CC list. -/
def ccAdds (cfg : Config) (ch : Changes) : List String :=
  (if ch.AddCc = "" then [] else [ch.AddCc]) ++ (if ch.CcMyself then [cfg.Username] else [])

/-- The addresses `Update` removes from the CC list. -/
def ccRemoves (ch : Changes) : List String :=
  if ch.RemoveCc = "" then [] else [ch.RemoveCc]

/-- The CC structure `Update` sends for the changes. -/
def ccOf (cfg : Config) (ch : Changes) : Option updOp :=
  if ch.AddCc = "" ∧ ch.RemoveCc = "" ∧ ch.CcMyself = false then none
  else some { Add := ccAdds cfg ch, Remove := ccRemoves ch }

/-- The member of a JSON object under a key: the first one, none when the key
is absent or the document is no object. -/
def Json.member (key : String) : Json → Option Json
  | .obj members => (members.find? (fun kv => kv.1 == key)).map Prod.snd
  | _ => none

/-- The needinfo clear of `Update` ends without an error for the fetched bug. -/
def needinfoStepPasses (L : Lib) (cfg : Config) (bug : Bug) (ch : Changes) : Bool :=
  match stepClearNeedinfo L cfg bug ch {} with
  | .ok _ => true
  | .error _ => false

/-- The server of `TestUpdateConnectionClosed`: it closes the connection, so
the HTTP client has no response and the error of the end of file. -/
def closedServer : HTTPClient where
  Get := fun _ => .failed (.errorString "EOF")
  Do := fun _ => .failed (.errorString "EOF")

/-- The client of `TestUpdateConnectionClosed`. -/
def closedClient : Client :=
  New { BaseURL := "http://bz", ApiKey := "xxxxxx" } closedServer

/-- A library of the tests that decodes every error body to a given result. -/
def errorLib (decoded : Except GoError responseError) : Lib :=
  { testLib testBug [] with unmarshalError := fun _ => decoded }

/-- The structured error of `sampleError` in the tests, as `json.Unmarshal`
decodes it; the member `error` of the body has no field, the tag being `erro`. -/
def sampleError : responseError :=
  { Code := some 102,
    Documentation := some "https://bugzilla.readthedocs.org/en/5.0/api/",
    Message := some "You are not authorized to access bug #1171184." }

/-- A library of the tests that decodes every bug response to no bug. -/
def noBugsLib : Lib :=
  { testLib testBug [] with unmarshalBugs := fun _ => .ok {} }

/-- The flags the needinfo clear of `Update` selects: none when no clear is
asked for, else the needinfo flags of the account with ClearMyNeedinfos, all
the needinfo flags with ClearNeedinfo, and those of RemoveNeedinfo otherwise. -/
def clearedFlags (L : Lib) (cfg : Config) (bug : Bug) (ch : Changes) : List Flag :=
  if ch.RemoveNeedinfo = "" ∧ ch.ClearNeedinfo = false then []
  else if ch.ClearMyNeedinfos then needinfoFlagsOf L bug cfg.Username
  else if ch.ClearNeedinfo then needinfoFlags bug
  else needinfoFlagsOf L bug ch.RemoveNeedinfo

/-! ## Lemmas -/

theorem ToLower_eq_empty {L : Lib} (s : String) : ToLower L s = "" ↔ s = "" := by
  constructor
  · intro h
    have h1 : (ToLower L s).data = [] := by rw [h]
    simp [ToLower] at h1
    cases s with
    | mk d => simp at h1; subst h1; rfl
  · intro h; subst h; rfl

theorem findNeedinfos_foldl {L : Lib} (lower : String) (flags : List Flag) (acc : List Int) :
    flags.foldl (findNeedinfosStep L lower) acc =
      acc ++ (flags.filter (fun f => decide (f.Name = "needinfo" ∧
        (lower = "" ∨ ToLower L f.Requestee = lower)))).map Flag.ID := by
  induction flags generalizing acc with
  | nil => simp
  | cons f rest ih =>
    rw [List.foldl_cons, ih]
    by_cases hn : f.Name = "needinfo"
    · by_cases hm : lower = "" ∨ ToLower L f.Requestee = lower
      · simp [findNeedinfosStep, hn, hm, List.filter_cons]
      · simp [findNeedinfosStep, hn, hm, List.filter_cons]
    · simp [findNeedinfosStep, hn, List.filter_cons]

theorem findNeedinfosFor_empty {L : Lib} (bug : Bug) :
    bug.findNeedinfosFor L "" = (needinfoFlags bug).map Flag.ID := by
  unfold Bug.findNeedinfosFor needinfoFlags
  rw [findNeedinfos_foldl]
  have h : ToLower L "" = "" := rfl
  simp [h]

theorem findNeedinfosFor_email {L : Lib} (bug : Bug) (email : String) (h : email ≠ "") :
    bug.findNeedinfosFor L email = (needinfoFlagsOf L bug email).map Flag.ID := by
  unfold Bug.findNeedinfosFor needinfoFlagsOf
  rw [findNeedinfos_foldl]
  have h1 : ToLower L email ≠ "" := fun he => h ((ToLower_eq_empty email).1 he)
  simp [h1]

theorem clear_foldl (ids : List Int) (up : updBug) :
    ids.foldl (fun u id => u.AddFlagChange { ID := id, Status := "X" }) up =
      { up with Flags := up.Flags ++ ids.map clearEntry } := by
  induction ids generalizing up with
  | nil => simp
  | cons i rest ih =>
    rw [List.foldl_cons, ih]
    simp [updBug.AddFlagChange, clearEntry]

theorem stepClearNeedinfo_eq {L : Lib} (cfg : Config) (bug : Bug) (ch : Changes) (up : updBug) :
    stepClearNeedinfo L cfg bug ch up =
      if ch.RemoveNeedinfo ≠ "" ∨ ch.ClearNeedinfo = true then
        match clearTarget cfg ch with
        | .error err => .error err
        | .ok target =>
          if (bug.findNeedinfosFor L target).length > 1 ∧ ch.ClearAllNeedinfos = false
              ∧ ch.RemoveNeedinfo = "" then
            .error (.RequestError (.errorString "More than one needinfo found"))
          else .ok { up with Flags := up.Flags ++ (bug.findNeedinfosFor L target).map clearEntry }
      else .ok up := by
  unfold stepClearNeedinfo
  simp only [clear_foldl]

theorem stepSetNeedinfo_eq {L : Lib} (bug : Bug) (ch : Changes) (up : updBug) :
    stepSetNeedinfo L bug ch up =
      { up with Flags := up.Flags ++
          (if ch.SetNeedinfo ≠ "" ∧ bug.hasNeedinfoFor L ch.SetNeedinfo = false
            then [newNeedinfo ch.SetNeedinfo] else []) } := by
  unfold stepSetNeedinfo
  by_cases h1 : ch.SetNeedinfo = ""
  · simp [h1]
  · by_cases h2 : bug.hasNeedinfoFor L ch.SetNeedinfo = true
    · simp [h1, h2]
    · simp [h1, h2, updBug.AddFlagChange, newNeedinfo]

theorem stepComment_Flags (ch : Changes) (up : updBug) : (stepComment ch up).Flags = up.Flags := by
  unfold stepComment; split <;> rfl

theorem stepFields_Flags (ch : Changes) (up : updBug) : (stepFields ch up).Flags = up.Flags := by
  unfold stepFields; simp only []; split_ifs <;> rfl

theorem stepStatus_Flags (ch : Changes) (up : updBug) : (stepStatus ch up).Flags = up.Flags := by
  unfold stepStatus; simp only []; split_ifs <;> rfl

theorem stepPriority_Flags {ch : Changes} {up u : updBug} (h : stepPriority ch up = .ok u) :
    u.Flags = up.Flags := by
  unfold stepPriority at h
  split at h
  · split at h
    · cases h
    · cases h; rfl
  · cases h; rfl

theorem stepCc_Flags {cfg : Config} {ch : Changes} {up u : updBug} (h : stepCc cfg ch up = .ok u) :
    u.Flags = up.Flags := by
  unfold stepCc at h
  simp only [] at h
  split at h
  · split at h
    · cases h
    · cases h; simp only [updBug.AddCC, updBug.RemoveCC]; split_ifs <;> rfl
  · cases h; simp only [updBug.AddCC, updBug.RemoveCC]; split_ifs <;> rfl

theorem stepPriority_ok {ch : Changes} (h : ch.SetPriority = "" ∨ (PriorityMap ch.SetPriority).isSome = true)
    (up : updBug) : ∃ u, stepPriority ch up = .ok u := by
  unfold stepPriority
  by_cases h1 : ch.SetPriority = ""
  · simp [h1]
  · rcases h with h | h
    · exact absurd h h1
    · cases hp : PriorityMap ch.SetPriority with
      | none => rw [hp] at h; simp at h
      | some prio => simp [h1]

theorem stepCc_ok {cfg : Config} {ch : Changes} (h : ch.CcMyself = true → '@' ∈ cfg.Username.data)
    (up : updBug) : ∃ u, stepCc cfg ch up = .ok u := by
  unfold stepCc
  by_cases h1 : ch.CcMyself = true
  · simp [h1, Config.emailAddress, h h1]
  · simp [h1]

/-- The rest of `buildUpdate` after the needinfo clear. -/
theorem buildUpdate_of_clear {L : Lib} {c : Client} {id : Int} {ch : Changes} {bug : Bug} {u1 : updBug}
    (hclear : stepClearNeedinfo L c.Config bug ch
      (stepSetNeedinfo L bug ch (stepComment ch { Ids := [id] })) = .ok u1)
    (hlater : laterStepsPass c.Config ch) :
    ∃ up, c.buildUpdate L id ch bug = .ok up ∧ up.Flags = u1.Flags := by
  obtain ⟨u2, h2⟩ := stepPriority_ok hlater.1 (stepFields ch u1)
  obtain ⟨u3, h3⟩ := stepCc_ok hlater.2 u2
  refine ⟨stepStatus ch u3, ?_, ?_⟩
  · simp [Client.buildUpdate, newBugUpdate, hclear, h2, h3]
  · rw [stepStatus_Flags, stepCc_Flags h3, stepPriority_Flags h2, stepFields_Flags]

theorem buildUpdate_clear_error {L : Lib} {c : Client} {id : Int} {ch : Changes} {bug : Bug} {err : GoError}
    (hclear : stepClearNeedinfo L c.Config bug ch
      (stepSetNeedinfo L bug ch (stepComment ch { Ids := [id] })) = .error err) :
    c.buildUpdate L id ch bug = .error err := by
  simp [Client.buildUpdate, newBugUpdate, hclear]

theorem writes_append (a b : List Event) : writes (a ++ b) = writes a ++ writes b := by
  induction a with
  | nil => rfl
  | cons e rest ih => cases e <;> simp [writes, ih]

theorem writes_cacheBugs (L : Lib) (c : Client) (bugs : List Bug) : writes (c.cacheBugs L bugs) = [] := by
  unfold Client.cacheBugs
  split
  · suffices h : ∀ (acc : List Event), writes acc = [] →
        writes (bugs.foldl (fun events bug =>
          match L.marshalBug bug with
          | .ok b => events ++ [Event.cache (toString bug.ID) b]
          | .error _ => events) acc) = [] from h [] rfl
    induction bugs with
    | nil => intro acc h; simpa using h
    | cons b rest ih =>
      intro acc h
      rw [List.foldl_cons]
      apply ih
      split
      · rw [writes_append, h]; rfl
      · exact h
  · rfl

theorem writes_GetComments (L : Lib) (c : Client) (ids : List Int) :
    writes (c.GetComments L ids).1 = [] := by
  unfold Client.GetComments Client.fetch
  repeat' split
  all_goals first | rfl | (simp only [Prod.mk.injEq] at *; casesm* _ ∧ _; subst_vars; rfl)

theorem writes_GetAttachmentsInfo (L : Lib) (c : Client) (ids : List Int) :
    writes (c.GetAttachmentsInfo L ids).1 = [] := by
  unfold Client.GetAttachmentsInfo Client.fetch
  repeat' split
  all_goals first | rfl | (simp only [Prod.mk.injEq] at *; casesm* _ ∧ _; subst_vars; rfl)

theorem writes_bugComments (L : Lib) (c : Client) (id : Int) (w : Bool) :
    writes (c.bugComments L id w).1 = [] := by
  unfold Client.bugComments
  have h := writes_GetComments L c [id]
  repeat' split
  all_goals first | rfl | (simp_all [writes])

theorem writes_bugAttachments (L : Lib) (c : Client) (id : Int) (w : Bool) :
    writes (c.bugAttachments L id w).1 = [] := by
  unfold Client.bugAttachments
  have h := writes_GetAttachmentsInfo L c [id]
  repeat' split
  all_goals first | rfl | (simp_all [writes])

/-- Reading a bug writes nothing. -/
theorem writes_GetBugEx (L : Lib) (c : Client) (id : Int) (wc wa : Bool) :
    writes (c.GetBugEx L id wc wa).1 = [] := by
  unfold Client.GetBugEx
  have h1 := writes_bugComments L c id wc
  have h2 := writes_bugAttachments L c id wa
  split
  · rfl
  · rename_i url _
    have h0 : ∀ x, (c.fetch L url).1 = x → writes x = [] := by
      intro x hx; rw [← hx]; rfl
    split
    · rename_i tr _ heq; exact h0 tr (by rw [heq])
    · rename_i tr _ heq; exact h0 tr (by rw [heq])
    · rename_i tr _ heq
      have ht := h0 tr (by rw [heq])
      split
      · exact ht
      · split
        · rename_i heq1; rw [heq1] at h1; simp [writes_append, ht, h1]
        · rename_i heq1; rw [heq1] at h1; simp [writes_append, ht, h1]
        · rename_i heq1; rw [heq1] at h1
          split
          · rename_i heq2; rw [heq2] at h2; simp [writes_append, ht, h1, h2]
          · rename_i heq2; rw [heq2] at h2; simp [writes_append, ht, h1, h2]
          · rename_i heq2; rw [heq2] at h2
            simp only []
            split <;> simp [writes_append, ht, h1, h2, writes_cacheBugs]

/-- A bug that was read has a URL. -/
theorem GetBugEx_url {L : Lib} {c : Client} {id : Int} {wc wa : Bool} {tr : List Event} {bug : Bug}
    (h : c.GetBugEx L id wc wa = (tr, .ok bug)) : ∃ url, c.getBugsURL L [id] [] = .ok url := by
  unfold Client.GetBugEx at h
  split at h
  · cases h
  · rename_i url hurl; exact ⟨url, hurl⟩

theorem put_trace (L : Lib) (c : Client) (url ct : String) (body : Json) :
    (c.put L url ct body).1 = [Event.put url body] := by
  unfold Client.put; split <;> rfl

theorem submitUpdate_trace {L : Lib} {c : Client} {id : Int} {url : String}
    (hurl : c.getBugsURL L [id] [] = .ok url) (up : updBug) :
    (c.submitUpdate L id up).1 = [Event.put url up.toJson] := by
  unfold Client.submitUpdate Client.getUpdateBugsURL Client.encodeUpdate
  rw [hurl]
  simp only []
  have hp := put_trace L c url "application/json" up.toJson
  rcases hput : c.put L url "application/json" up.toJson with ⟨tr, out⟩
  rw [hput] at hp
  simp only [] at hp
  subst hp
  cases out <;> simp only []
  repeat' split
  all_goals rfl

theorem writes_of_fetch {L : Lib} {c : Client} {id : Int} {wc wa : Bool} {tr : List Event} {bug : Bug}
    (h : c.GetBugEx L id wc wa = (tr, .ok bug)) : writes tr = [] := by
  have h1 := writes_GetBugEx L c id wc wa
  rw [h] at h1
  exact h1

theorem Update_of_collision {L : Lib} {c : Client} {id : Int} {ch : Changes} {tr : List Event}
    {bug : Bug} {err : GoError}
    (hfetch : c.GetBugEx L id false false = (tr, .ok bug))
    (hdelta : Client.checkDeltaTS L ch bug = some err) :
    c.Update L id ch = (tr, .error err) := by
  simp only [Client.Update, hfetch, hdelta]

theorem Update_of_build_error {L : Lib} {c : Client} {id : Int} {ch : Changes} {tr : List Event}
    {bug : Bug} {err : GoError}
    (hfetch : c.GetBugEx L id false false = (tr, .ok bug))
    (hdelta : Client.checkDeltaTS L ch bug = none)
    (hbuild : c.buildUpdate L id ch bug = .error err) :
    c.Update L id ch = (tr, .error err) := by
  simp only [Client.Update, hfetch, hdelta, hbuild]

theorem Update_of_build_ok {L : Lib} {c : Client} {id : Int} {ch : Changes} {tr : List Event}
    {bug : Bug} {up : updBug}
    (hfetch : c.GetBugEx L id false false = (tr, .ok bug))
    (hdelta : Client.checkDeltaTS L ch bug = none)
    (hbuild : c.buildUpdate L id ch bug = .ok up) :
    ∃ url, c.getBugsURL L [id] [] = .ok url ∧
      c.Update L id ch = (tr ++ [Event.put url up.toJson], (c.submitUpdate L id up).2) := by
  obtain ⟨url, hurl⟩ := GetBugEx_url hfetch
  refine ⟨url, hurl, ?_⟩
  have h1 := submitUpdate_trace hurl up
  simp only [Client.Update, hfetch, hdelta, hbuild]
  rw [← h1]

/-- The writes of an `Update` that built its wire update: the one `put`. -/
theorem writes_of_build_ok {L : Lib} {c : Client} {id : Int} {ch : Changes} {tr : List Event}
    {bug : Bug} {up : updBug}
    (hfetch : c.GetBugEx L id false false = (tr, .ok bug))
    (hdelta : Client.checkDeltaTS L ch bug = none)
    (hbuild : c.buildUpdate L id ch bug = .ok up) :
    ∃ url, c.getBugsURL L [id] [] = .ok url ∧ writes (c.Update L id ch).1 = [(url, up.toJson)] := by
  obtain ⟨url, hurl, hupd⟩ := Update_of_build_ok hfetch hdelta hbuild
  refine ⟨url, hurl, ?_⟩
  rw [hupd]
  simp [writes_append, writes_of_fetch hfetch, writes]

theorem base_Flags {L : Lib} (id : Int) (bug : Bug) (ch : Changes) :
    (stepSetNeedinfo L bug ch (stepComment ch { Ids := [id] })).Flags =
      if ch.SetNeedinfo ≠ "" ∧ bug.hasNeedinfoFor L ch.SetNeedinfo = false
        then [newNeedinfo ch.SetNeedinfo] else [] := by
  rw [stepSetNeedinfo_eq]
  simp [stepComment_Flags]

/-- The needinfo clear when its target is known and the clear is not ambiguous. -/
theorem stepClearNeedinfo_ok {L : Lib} (cfg : Config) (bug : Bug) {ch : Changes} {target : String} (up : updBug)
    (hreq : ch.RemoveNeedinfo ≠ "" ∨ ch.ClearNeedinfo = true)
    (htarget : clearTarget cfg ch = .ok target)
    (hclear : ¬ ((bug.findNeedinfosFor L target).length > 1 ∧ ch.ClearAllNeedinfos = false
      ∧ ch.RemoveNeedinfo = "")) :
    stepClearNeedinfo L cfg bug ch up
      = .ok { up with Flags := up.Flags ++ (bug.findNeedinfosFor L target).map clearEntry } := by
  rw [stepClearNeedinfo_eq, if_pos hreq, htarget]
  simp only []
  rw [if_neg hclear]

theorem emailAddress_error {cfg : Config} {err : GoError} (h : cfg.emailAddress = .error err) :
    err = usernameError cfg := by
  unfold Config.emailAddress at h
  simp only [] at h
  split at h
  · cases h; rfl
  · cases h

theorem stepClearNeedinfo_error {L : Lib} {cfg : Config} {bug : Bug} {ch : Changes} {up : updBug} {err : GoError}
    (h : stepClearNeedinfo L cfg bug ch up = .error err) :
    err = usernameError cfg ∨ err = ambiguousError := by
  rw [stepClearNeedinfo_eq] at h
  split at h
  · split at h
    · rename_i e htarget
      cases h
      unfold clearTarget at htarget
      simp only [] at htarget
      split at htarget
      · exact Or.inl (emailAddress_error htarget)
      · split at htarget <;> cases htarget
    · split at h
      · cases h; exact Or.inr rfl
      · cases h
  · cases h

theorem stepPriority_error {ch : Changes} {up : updBug} {err : GoError}
    (h : stepPriority ch up = .error err) : err = priorityError ch := by
  unfold stepPriority at h
  split at h
  · split at h
    · cases h; rfl
    · cases h
  · cases h

theorem stepCc_error {cfg : Config} {ch : Changes} {up : updBug} {err : GoError}
    (h : stepCc cfg ch up = .error err) : err = usernameError cfg := by
  unfold stepCc at h
  simp only [] at h
  split at h
  · split at h
    · rename_i e he; cases h; exact emailAddress_error he
    · cases h
  · cases h

/-- The errors that end `buildUpdate`. -/
theorem buildUpdate_error_cases {L : Lib} {c : Client} {id : Int} {ch : Changes} {bug : Bug} {err : GoError}
    (h : c.buildUpdate L id ch bug = .error err) :
    err = usernameError c.Config ∨ err = ambiguousError ∨ err = priorityError ch := by
  unfold Client.buildUpdate at h
  simp only [] at h
  split at h
  · rename_i e he
    cases h
    rcases stepClearNeedinfo_error he with h1 | h1
    · exact Or.inl h1
    · exact Or.inr (Or.inl h1)
  · split at h
    · rename_i e he
      cases h
      exact Or.inr (Or.inr (stepPriority_error he))
    · split at h
      · rename_i e he
        cases h
        exact Or.inl (stepCc_error he)
      · cases h

theorem checkDeltaTS_eq (L : Lib) (ch : Changes) (bug : Bug) :
    Client.checkDeltaTS L ch bug =
      if ch.CheckDeltaTS = true ∧ bug.LastChangeTime.Equal ch.DeltaTS = false
        then some (collisionError L bug) else none := by
  unfold Client.checkDeltaTS collisionError
  by_cases h1 : ch.CheckDeltaTS = true
  · by_cases h2 : bug.LastChangeTime.Equal ch.DeltaTS = true
    · simp [h1, h2]
    · simp [h1, h2]
  · simp [h1]

theorem collisionError_ne_username (L : Lib) (bug : Bug) (cfg : Config) :
    usernameError cfg ≠ collisionError L bug := by
  intro h
  unfold usernameError collisionError at h
  injection h with h
  injection h with h
  have h1 := congrArg (fun s => s.data.head?) h
  simp at h1

theorem collisionError_ne_priority (L : Lib) (bug : Bug) (ch : Changes) :
    priorityError ch ≠ collisionError L bug := by
  intro h
  unfold priorityError collisionError at h
  injection h with h
  injection h with h
  have h1 := congrArg (fun s => s.data.head?) h
  simp at h1

theorem collisionError_ne_ambiguous (L : Lib) (bug : Bug) :
    ambiguousError ≠ collisionError L bug := by
  intro h
  unfold ambiguousError collisionError at h
  cases h

/-- `Update` ends with the error of the collision check and without a write
exactly when the check is asked for and the two times are different instants. -/
theorem collision_iff {L : Lib} {c : Client} {id : Int} {ch : Changes} {tr : List Event} {bug : Bug}
    (hfetch : c.GetBugEx L id false false = (tr, .ok bug)) :
    ((c.Update L id ch).2 = .error (collisionError L bug) ∧ writes (c.Update L id ch).1 = [])
      ↔ (ch.CheckDeltaTS = true ∧ bug.LastChangeTime.Equal ch.DeltaTS = false) := by
  have hd := checkDeltaTS_eq L ch bug
  by_cases hc : ch.CheckDeltaTS = true ∧ bug.LastChangeTime.Equal ch.DeltaTS = false
  · rw [if_pos hc] at hd
    rw [Update_of_collision hfetch hd]
    simp [hc, writes_of_fetch hfetch]
  · rw [if_neg hc] at hd
    constructor
    · rintro ⟨herr, hw⟩
      exfalso
      cases hb : c.buildUpdate L id ch bug with
      | error err =>
        rw [Update_of_build_error hfetch hd hb] at herr
        simp only [Outcome.error.injEq] at herr
        rcases buildUpdate_error_cases hb with h1 | h1 | h1
        · exact collisionError_ne_username L bug c.Config (h1 ▸ herr)
        · exact collisionError_ne_ambiguous L bug (h1 ▸ herr)
        · exact collisionError_ne_priority L bug ch (h1 ▸ herr)
      | ok up =>
        obtain ⟨url, _, hw1⟩ := writes_of_build_ok hfetch hd hb
        rw [hw1] at hw
        cases hw
    · intro h; exact absurd h hc

theorem Update_DeltaTS_ignored {L : Lib} {c : Client} {id : Int} {ch : Changes}
    (h : ch.CheckDeltaTS = false) (t : Time) :
    c.Update L id { ch with DeltaTS := t } = c.Update L id ch := by
  unfold Client.Update
  split
  · rfl
  · rfl
  · rename_i tr bug _
    have h1 : Client.checkDeltaTS L { ch with DeltaTS := t } bug = none := by
      simp [Client.checkDeltaTS, h]
    have h2 : Client.checkDeltaTS L ch bug = none := by
      simp [Client.checkDeltaTS, h]
    rw [h1, h2]
    rfl

theorem buildUpdate_inv {L : Lib} {c : Client} {id : Int} {ch : Changes} {bug : Bug} {up : updBug}
    (h : c.buildUpdate L id ch bug = .ok up) :
    ∃ u1, stepClearNeedinfo L c.Config bug ch
        (stepSetNeedinfo L bug ch (stepComment ch { Ids := [id] })) = .ok u1
      ∧ up.Flags = u1.Flags := by
  unfold Client.buildUpdate at h
  simp only [] at h
  split at h
  · cases h
  · rename_i u1 h1
    split at h
    · cases h
    · rename_i u2 h2
      split at h
      · cases h
      · rename_i u3 h3
        cases h
        refine ⟨u1, h1, ?_⟩
        rw [stepStatus_Flags, stepCc_Flags h3, stepPriority_Flags h2, stepFields_Flags]

theorem stepClearNeedinfo_inv {L : Lib} {cfg : Config} {bug : Bug} {ch : Changes} {up u1 : updBug}
    (h : stepClearNeedinfo L cfg bug ch up = .ok u1) :
    ∃ ids, u1.Flags = up.Flags ++ ids.map clearEntry
      ∧ ((ch.RemoveNeedinfo = "" ∧ ch.ClearNeedinfo = false ∧ ids = [])
        ∨ ((ch.RemoveNeedinfo ≠ "" ∨ ch.ClearNeedinfo = true)
          ∧ ∃ target, clearTarget cfg ch = .ok target ∧ ids = bug.findNeedinfosFor L target)) := by
  rw [stepClearNeedinfo_eq] at h
  split at h
  · rename_i hreq
    split at h
    · cases h
    · rename_i target htarget
      split at h
      · cases h
      · cases h
        exact ⟨bug.findNeedinfosFor L target, rfl, Or.inr ⟨hreq, target, htarget, rfl⟩⟩
  · rename_i hreq
    cases h
    refine ⟨[], by simp, Or.inl ?_⟩
    simp only [not_or, ne_eq, not_not, Bool.not_eq_true] at hreq
    exact ⟨hreq.1, hreq.2, rfl⟩

/-- The flag list of a wire update: the requested needinfo, if any, and then
the clears of the flags `findNeedinfosFor` gave for the target. -/
theorem buildUpdate_Flags {L : Lib} {c : Client} {id : Int} {ch : Changes} {bug : Bug} {up : updBug}
    (h : c.buildUpdate L id ch bug = .ok up) :
    ∃ ids, up.Flags = requestedEntries L bug ch ++ ids.map clearEntry
      ∧ ((ch.RemoveNeedinfo = "" ∧ ch.ClearNeedinfo = false ∧ ids = [])
        ∨ ((ch.RemoveNeedinfo ≠ "" ∨ ch.ClearNeedinfo = true)
          ∧ ∃ target, clearTarget c.Config ch = .ok target
              ∧ ids = bug.findNeedinfosFor L target)) := by
  obtain ⟨u1, h1, hf⟩ := buildUpdate_inv h
  obtain ⟨ids, hids, hcase⟩ := stepClearNeedinfo_inv h1
  refine ⟨ids, ?_, hcase⟩
  rw [hf, hids, base_Flags]
  rfl

theorem mem_findNeedinfosFor {L : Lib} {bug : Bug} {target : String} {i : Int}
    (h : i ∈ bug.findNeedinfosFor L target) :
    ∃ g ∈ bug.Flags, g.Name = "needinfo" ∧ g.ID = i := by
  unfold Bug.findNeedinfosFor at h
  rw [findNeedinfos_foldl] at h
  simp only [List.nil_append, List.mem_map, List.mem_filter, decide_eq_true_eq] at h
  obtain ⟨g, ⟨hg, hn, _⟩, hi⟩ := h
  exact ⟨g, hg, hn, hi⟩

theorem hasNeedinfoFor_of_flag {L : Lib} {bug : Bug} {email : String} {f : Flag} (hf : f ∈ bug.Flags)
    (hn : f.Name = "needinfo") (hr : ToLower L f.Requestee = ToLower L email) :
    bug.hasNeedinfoFor L email = true := by
  unfold Bug.hasNeedinfoFor Bug.findNeedinfosFor
  rw [findNeedinfos_foldl]
  simp only [List.nil_append, List.length_map, gt_iff_lt, decide_eq_true_eq]
  apply List.length_pos_of_mem (a := f)
  simp [List.mem_filter, hf, hn, hr]

theorem hasNeedinfoFor_false {L : Lib} {bug : Bug} {email : String} (he : email ≠ "")
    (h : ∀ f ∈ bug.Flags, f.Name = "needinfo" → ToLower L f.Requestee ≠ ToLower L email) :
    bug.hasNeedinfoFor L email = false := by
  unfold Bug.hasNeedinfoFor
  rw [findNeedinfosFor_email bug email he]
  have hnil : needinfoFlagsOf L bug email = [] := by
    unfold needinfoFlagsOf
    rw [List.filter_eq_nil_iff]
    intro f hf
    simp only [decide_eq_true_eq, not_and]
    exact h f hf
  simp [hnil]

theorem clearEntriesOf_eq {L : Lib} {up : updBug} {bug : Bug} {ch : Changes} {ids : List Int}
    (h : up.Flags = requestedEntries L bug ch ++ ids.map clearEntry) :
    clearEntriesOf up = ids.map clearEntry := by
  unfold clearEntriesOf
  rw [h, List.filter_append]
  have h1 : (requestedEntries L bug ch).filter (fun f => decide (f.Status = "X")) = [] := by
    unfold requestedEntries
    split
    · simp [newNeedinfo]
    · rfl
  have h2 : (ids.map clearEntry).filter (fun f => decide (f.Status = "X")) = ids.map clearEntry := by
    rw [List.filter_eq_self]
    intro f hf
    simp only [List.mem_map] at hf
    obtain ⟨i, _, hi⟩ := hf
    subst hi
    simp [clearEntry]
  rw [h1, h2, List.nil_append]

theorem stepComment_eq (ch : Changes) (up : updBug) :
    stepComment ch up
      = { up with Comment := if ch.AddComment = "" then up.Comment
                             else some { Body := ch.AddComment, IsPrivate := ch.CommentIsPrivate } } := by
  unfold stepComment
  by_cases h : ch.AddComment = "" <;> simp [h]

theorem stepFields_eq (ch : Changes) (up : updBug) :
    stepFields ch up
      = { up with URL := if ch.SetURL = "" then up.URL else some ch.SetURL,
                  AssignedTo := if ch.SetAssignee = "" then up.AssignedTo else some ch.SetAssignee,
                  Summary := if ch.SetDescription = "" then up.Summary
                             else some ch.SetDescription } := by
  unfold stepFields
  by_cases h1 : ch.SetURL = "" <;> by_cases h2 : ch.SetAssignee = ""
    <;> by_cases h3 : ch.SetDescription = "" <;> simp [h1, h2, h3]

theorem stepStatus_eq (ch : Changes) (up : updBug) :
    stepStatus ch up
      = { up with Whiteboard := if ch.SetWhiteboard = "" then up.Whiteboard
                                else some ch.SetWhiteboard,
                  Status := if ch.SetStatus = "" then up.Status else some ch.SetStatus,
                  Resolution := if ch.SetResolution = "" then up.Resolution
                                else some ch.SetResolution,
                  DupeOf := if ch.SetDuplicate = 0 then up.DupeOf else ch.SetDuplicate } := by
  unfold stepStatus
  by_cases h1 : ch.SetWhiteboard = "" <;> by_cases h2 : ch.SetStatus = ""
    <;> by_cases h3 : ch.SetResolution = "" <;> by_cases h4 : ch.SetDuplicate = 0
    <;> simp [h1, h2, h3, h4]

theorem stepPriority_inv {ch : Changes} {up u : updBug} (h : stepPriority ch up = .ok u) :
    u = { up with Priority := if ch.SetPriority = "" then up.Priority
                              else PriorityMap ch.SetPriority }
      ∧ (ch.SetPriority = "" ∨ (PriorityMap ch.SetPriority).isSome = true) := by
  unfold stepPriority at h
  by_cases h1 : ch.SetPriority = ""
  · simp [h1] at h
    subst h
    simp [h1]
  · simp only [ne_eq, h1, not_false_eq_true, if_true] at h
    cases hp : PriorityMap ch.SetPriority with
    | none => rw [hp] at h; cases h
    | some prio =>
      rw [hp] at h
      simp only [Except.ok.injEq] at h
      subst h
      simp [h1]

theorem stepCc_inv {cfg : Config} {ch : Changes} {up u : updBug} (h : stepCc cfg ch up = .ok u)
    (hcc : up.CC = none) :
    u = { up with CC := ccOf cfg ch } ∧ (ch.CcMyself = true → '@' ∈ cfg.Username.data) := by
  unfold stepCc at h
  simp only [] at h
  by_cases h3 : ch.CcMyself = true
  · by_cases hat : '@' ∈ cfg.Username.data
    · simp only [h3, if_true, Config.emailAddress, hat, not_true_eq_false, if_false,
        Except.ok.injEq] at h
      subst h
      refine ⟨?_, fun _ => hat⟩
      by_cases h1 : ch.AddCc = "" <;> by_cases h2 : ch.RemoveCc = ""
        <;> simp [h1, h2, h3, hcc, ccOf, ccAdds, ccRemoves, updBug.AddCC, updBug.RemoveCC,
              updBug.initUpdOp, updOp.AddOp, updOp.RemoveOp]
    · simp [h3, Config.emailAddress, hat] at h
  · simp only [h3, Bool.false_eq_true, if_false, Except.ok.injEq] at h
    subst h
    refine ⟨?_, fun h => absurd h h3⟩
    have h3' : ch.CcMyself = false := by simpa using h3
    by_cases h1 : ch.AddCc = "" <;> by_cases h2 : ch.RemoveCc = ""
      <;> simp [h1, h2, h3', hcc, ccOf, ccAdds, ccRemoves, updBug.AddCC, updBug.RemoveCC,
            updBug.initUpdOp, updOp.AddOp, updOp.RemoveOp]
    cases up
    simp_all

theorem stepClearNeedinfo_frame {L : Lib} {cfg : Config} {bug : Bug} {ch : Changes} {up u1 : updBug}
    (h : stepClearNeedinfo L cfg bug ch up = .ok u1) : ∃ flags, u1 = { up with Flags := flags } := by
  rw [stepClearNeedinfo_eq] at h
  split at h
  · split at h
    · cases h
    · split at h
      · cases h
      · cases h; exact ⟨_, rfl⟩
  · cases h; exact ⟨up.Flags, rfl⟩

/-- The steps a built wire update went through. -/
theorem buildUpdate_steps {L : Lib} {c : Client} {id : Int} {ch : Changes} {bug : Bug} {up : updBug}
    (h : c.buildUpdate L id ch bug = .ok up) :
    ∃ u1 u2 u3, stepClearNeedinfo L c.Config bug ch
        (stepSetNeedinfo L bug ch (stepComment ch { Ids := [id] })) = .ok u1
      ∧ stepPriority ch (stepFields ch u1) = .ok u2
      ∧ stepCc c.Config ch u2 = .ok u3
      ∧ up = stepStatus ch u3 := by
  unfold Client.buildUpdate at h
  simp only [] at h
  split at h
  · cases h
  · rename_i u1 h1
    split at h
    · cases h
    · rename_i u2 h2
      split at h
      · cases h
      · rename_i u3 h3
        cases h
        exact ⟨u1, u2, u3, h1, h2, h3, rfl⟩

/-- Every field of a built wire update, the flag list apart: the ID, the
comment, the scalar fields, the priority, the CC structure and the duplicate
are those of the changes, and nothing else is set. -/
theorem buildUpdate_fields {L : Lib} {c : Client} {id : Int} {ch : Changes} {bug : Bug} {up : updBug}
    (h : c.buildUpdate L id ch bug = .ok up) :
    up = { Ids := [id],
           Flags := up.Flags,
           Comment := commentOf ch,
           URL := optStr ch.SetURL,
           AssignedTo := optStr ch.SetAssignee,
           Summary := optStr ch.SetDescription,
           Priority := priorityOf ch,
           CC := ccOf c.Config ch,
           Whiteboard := optStr ch.SetWhiteboard,
           Status := optStr ch.SetStatus,
           Resolution := optStr ch.SetResolution,
           DupeOf := ch.SetDuplicate }
      ∧ (ch.SetPriority = "" ∨ (PriorityMap ch.SetPriority).isSome = true)
      ∧ (ch.CcMyself = true → '@' ∈ c.Config.Username.data) := by
  obtain ⟨u1, u2, u3, h1, h2, h3, hup⟩ := buildUpdate_steps h
  obtain ⟨flags, e1⟩ := stepClearNeedinfo_frame h1
  obtain ⟨e2, hp⟩ := stepPriority_inv h2
  subst e1
  have hcc2 : u2.CC = none := by
    subst e2
    simp only [stepFields_eq, stepSetNeedinfo_eq, stepComment_eq]
  obtain ⟨e3, hat⟩ := stepCc_inv h3 hcc2
  refine ⟨?_, hp, hat⟩
  subst e3 e2 hup
  simp only [stepStatus_eq, stepFields_eq, stepSetNeedinfo_eq, stepComment_eq]
  simp only [commentOf, optStr, priorityOf]
  by_cases hd : ch.SetDuplicate = 0
  · simp [hd]
  · simp [hd]

theorem find_omitList (k key : String) (items : List Json) :
    (omitList k items).find? (fun kv => kv.1 == key)
      = if k = key ∧ items.isEmpty = false then some (k, Json.arr items) else none := by
  unfold omitList
  cases items with
  | nil => simp
  | cons a rest =>
    by_cases h : k = key
    · simp [h]
    · simp [h]

theorem find_omitPtr (k key : String) (p : Option Json) :
    (omitPtr k p).find? (fun kv => kv.1 == key)
      = if k = key then p.map (fun v => (k, v)) else none := by
  unfold omitPtr
  cases p with
  | none => simp
  | some v =>
    by_cases h : k = key
    · simp [h]
    · simp [h]

theorem find_omitInt (k key : String) (n : Int) :
    (omitInt k n).find? (fun kv => kv.1 == key)
      = if k = key ∧ n ≠ 0 then some (k, Json.num n) else none := by
  unfold omitInt
  by_cases hn : n = 0
  · simp [hn]
  · by_cases h : k = key
    · simp [h, hn]
    · simp [h, hn]

theorem toJson_url (u : updBug) :
    u.toJson.member "url" = u.URL.map Json.str := by
  simp [updBug.toJson, Json.member, List.find?_append, find_omitList, find_omitPtr, find_omitInt,
    List.find?_cons]
  cases u.URL <;> simp

theorem toJson_assigned_to (u : updBug) :
    u.toJson.member "assigned_to" = u.AssignedTo.map Json.str := by
  simp [updBug.toJson, Json.member, List.find?_append, find_omitList, find_omitPtr, find_omitInt,
    List.find?_cons]
  cases u.AssignedTo <;> simp

theorem toJson_summary (u : updBug) :
    u.toJson.member "summary" = u.Summary.map Json.str := by
  simp [updBug.toJson, Json.member, List.find?_append, find_omitList, find_omitPtr, find_omitInt,
    List.find?_cons]
  cases u.Summary <;> simp

theorem toJson_whiteboard (u : updBug) :
    u.toJson.member "whiteboard" = u.Whiteboard.map Json.str := by
  simp [updBug.toJson, Json.member, List.find?_append, find_omitList, find_omitPtr, find_omitInt,
    List.find?_cons]
  cases u.Whiteboard <;> simp

theorem toJson_status (u : updBug) :
    u.toJson.member "status" = u.Status.map Json.str := by
  simp [updBug.toJson, Json.member, List.find?_append, find_omitList, find_omitPtr, find_omitInt,
    List.find?_cons]
  cases u.Status <;> simp

theorem toJson_resolution (u : updBug) :
    u.toJson.member "resolution" = u.Resolution.map Json.str := by
  simp [updBug.toJson, Json.member, List.find?_append, find_omitList, find_omitPtr, find_omitInt,
    List.find?_cons]
  cases u.Resolution <;> simp

theorem toJson_comment (u : updBug) :
    u.toJson.member "comment" = u.Comment.map commentChange.toJson := by
  simp [updBug.toJson, Json.member, List.find?_append, find_omitList, find_omitPtr, find_omitInt,
    List.find?_cons]
  cases u.Comment <;> simp

theorem toJson_cc (u : updBug) :
    u.toJson.member "cc" = u.CC.map updOp.toJson := by
  simp [updBug.toJson, Json.member, List.find?_append, find_omitList, find_omitPtr, find_omitInt,
    List.find?_cons]
  cases u.CC <;> simp

theorem updOp_toJson_add (op : updOp) :
    op.toJson.member "add" = if op.Add = [] then none else some (Json.arr (op.Add.map Json.str)) := by
  simp [updOp.toJson, Json.member, List.find?_append, find_omitList]
  cases op.Add <;> simp

theorem updOp_toJson_remove (op : updOp) :
    op.toJson.member "remove"
      = if op.Remove = [] then none else some (Json.arr (op.Remove.map Json.str)) := by
  simp [updOp.toJson, Json.member, List.find?_append, find_omitList]
  cases op.Remove <;> simp

theorem needinfoStepPasses_ok {L : Lib} {cfg : Config} {bug : Bug} {ch : Changes}
    (h : needinfoStepPasses L cfg bug ch = true) (up : updBug) :
    ∃ u, stepClearNeedinfo L cfg bug ch up = .ok u := by
  unfold needinfoStepPasses at h
  rw [stepClearNeedinfo_eq] at h
  rw [stepClearNeedinfo_eq]
  split
  · rename_i hreq
    rw [if_pos hreq] at h
    split
    · rename_i err herr
      rw [herr] at h
      simp at h
    · rename_i target htarget
      rw [htarget] at h
      simp only [] at h
      split
      · rename_i hamb
        rw [if_pos hamb] at h
        simp at h
      · exact ⟨_, rfl⟩
  · exact ⟨_, rfl⟩

/-- A successful `Update` fetched a bug, passed the collision check, built a
wire update and wrote it, once. -/
theorem Update_ok_inv {L : Lib} {c : Client} {id : Int} {ch : Changes} {r : UpdateResponse}
    (h : (c.Update L id ch).2 = .ok r) :
    ∃ tr bug up url, c.GetBugEx L id false false = (tr, .ok bug)
      ∧ Client.checkDeltaTS L ch bug = none
      ∧ c.buildUpdate L id ch bug = .ok up
      ∧ writes (c.Update L id ch).1 = [(url, up.toJson)] := by
  rcases hg : c.GetBugEx L id false false with ⟨tr, out⟩
  cases out with
  | panic msg => simp [Client.Update, hg] at h
  | error err => simp [Client.Update, hg] at h
  | ok bug =>
    cases hd : Client.checkDeltaTS L ch bug with
    | some err => rw [Update_of_collision hg hd] at h; cases h
    | none =>
      cases hb : c.buildUpdate L id ch bug with
      | error err => rw [Update_of_build_error hg hd hb] at h; cases h
      | ok up =>
        obtain ⟨url, _, hw⟩ := writes_of_build_ok hg hd hb
        exact ⟨tr, bug, up, url, rfl, hd, hb, hw⟩

/-- An `Update` whose wire update cannot be built ends in an error of the
fetch, of the collision check or of the builder, and writes nothing. -/
theorem Update_of_no_build {L : Lib} {c : Client} {id : Int} {ch : Changes}
    (h : ∀ bug up, c.buildUpdate L id ch bug ≠ .ok up) :
    writes (c.Update L id ch).1 = [] ∧ ∀ r, (c.Update L id ch).2 ≠ .ok r := by
  constructor
  · have hw := writes_GetBugEx L c id false false
    rcases hg : c.GetBugEx L id false false with ⟨tr, out⟩
    rw [hg] at hw
    cases out with
    | panic msg => simpa [Client.Update, hg] using hw
    | error err => simpa [Client.Update, hg] using hw
    | ok bug =>
      cases hd : Client.checkDeltaTS L ch bug with
      | some err => rw [Update_of_collision hg hd]; exact hw
      | none =>
        cases hb : c.buildUpdate L id ch bug with
        | error err => rw [Update_of_build_error hg hd hb]; exact hw
        | ok up => exact absurd hb (h bug up)
  · intro r hr
    obtain ⟨_, bug, up, _, _, _, hb, _⟩ := Update_ok_inv hr
    exact h bug up hb

theorem PriorityMap_none_of_not_key {p : String}
    (h : p ∉ ["P0", "P1", "P2", "P3", "P4", "P5"]) : PriorityMap p = none := by
  simp only [List.mem_cons, List.mem_singleton, List.not_mem_nil, or_false, not_or] at h
  obtain ⟨h0, h1, h2, h3, h4, h5⟩ := h
  simp [PriorityMap, h0, h1, h2, h3, h4, h5]

theorem PriorityMap_some {p v : String} (h : PriorityMap p = some v) :
    (p, v) ∈ [("P0", "P0 - Crit Sit"), ("P1", "P1 - Urgent"), ("P2", "P2 - High"),
      ("P3", "P3 - Medium"), ("P4", "P4 - Low"), ("P5", "P5 - None")] := by
  unfold PriorityMap at h
  split_ifs at h with h0 h1 h2 h3 h4 h5
  all_goals simp_all

/-- The builder on changes whose priority is no key of the table, when the
needinfo clear passes: the error of the priority. -/
theorem buildUpdate_priority_error {L : Lib} {c : Client} {id : Int} {ch : Changes} {bug : Bug}
    (hne : ch.SetPriority ≠ "") (hkey : PriorityMap ch.SetPriority = none)
    (hneed : needinfoStepPasses L c.Config bug ch = true) :
    c.buildUpdate L id ch bug = .error (priorityError ch) := by
  obtain ⟨u1, h1⟩ := needinfoStepPasses_ok hneed
    (stepSetNeedinfo L bug ch (stepComment ch { Ids := [id] }))
  simp [Client.buildUpdate, newBugUpdate, h1, stepPriority, hne, hkey, priorityError]

theorem priorityOf_cases {ch : Changes}
    (hp : ch.SetPriority = "" ∨ (PriorityMap ch.SetPriority).isSome = true) :
    (ch.SetPriority = "" ∧ priorityOf ch = none)
      ∨ ∃ v, priorityOf ch = some v
          ∧ (ch.SetPriority, v) ∈ [("P0", "P0 - Crit Sit"), ("P1", "P1 - Urgent"),
              ("P2", "P2 - High"), ("P3", "P3 - Medium"), ("P4", "P4 - Low"),
              ("P5", "P5 - None")] := by
  by_cases h : ch.SetPriority = ""
  · exact Or.inl ⟨h, by simp [priorityOf, h]⟩
  · rcases hp with hp | hp
    · exact absurd hp h
    · cases hv : PriorityMap ch.SetPriority with
      | none => rw [hv] at hp; simp at hp
      | some v => exact Or.inr ⟨v, by simp [priorityOf, h, hv], PriorityMap_some hv⟩

theorem emailAddress_no_at {cfg : Config} (h : '@' ∉ cfg.Username.data) :
    cfg.emailAddress = .error (usernameError cfg) := by
  simp [Config.emailAddress, h, usernameError]

theorem emailAddress_at {cfg : Config} (h : '@' ∈ cfg.Username.data) :
    cfg.emailAddress = .ok cfg.Username := by
  simp [Config.emailAddress, h]

/-- The builder when ClearMyNeedinfos asks for the address of a user name that
has none: the error of the user name, before anything else is checked. -/
theorem buildUpdate_username_clear {L : Lib} {c : Client} {id : Int} {ch : Changes} {bug : Bug}
    (hno : '@' ∉ c.Config.Username.data) (hmy : ch.ClearMyNeedinfos = true)
    (hreq : ch.RemoveNeedinfo ≠ "" ∨ ch.ClearNeedinfo = true) :
    c.buildUpdate L id ch bug = .error (usernameError c.Config) := by
  apply buildUpdate_clear_error
  rw [stepClearNeedinfo_eq, if_pos hreq]
  simp [clearTarget, hmy, emailAddress_no_at hno]

/-- The builder when CcMyself asks for the address of a user name that has
none, the needinfo clear and the priority passing: the error of the user name. -/
theorem buildUpdate_username_cc {L : Lib} {c : Client} {id : Int} {ch : Changes} {bug : Bug}
    (hno : '@' ∉ c.Config.Username.data) (hcc : ch.CcMyself = true)
    (hneed : needinfoStepPasses L c.Config bug ch = true)
    (hprio : ch.SetPriority = "" ∨ (PriorityMap ch.SetPriority).isSome = true) :
    c.buildUpdate L id ch bug = .error (usernameError c.Config) := by
  obtain ⟨u1, h1⟩ := needinfoStepPasses_ok hneed
    (stepSetNeedinfo L bug ch (stepComment ch { Ids := [id] }))
  obtain ⟨u2, h2⟩ := stepPriority_ok hprio (stepFields ch u1)
  simp [Client.buildUpdate, newBugUpdate, h1, h2, stepCc, hcc, emailAddress_no_at hno]

/-- No wire update is built when the address of the account is needed and the
user name has none. -/
theorem buildUpdate_needs_email {L : Lib} {c : Client} {id : Int} {ch : Changes}
    (hno : '@' ∉ c.Config.Username.data)
    (hneeds : ch.CcMyself = true ∨ (ch.ClearNeedinfo = true ∧ ch.ClearMyNeedinfos = true)) :
    ∀ bug up, c.buildUpdate L id ch bug ≠ .ok up := by
  intro bug up hb
  rcases hneeds with hcc | ⟨hcl, hmy⟩
  · obtain ⟨_, _, hat⟩ := buildUpdate_fields hb
    exact hno (hat hcc)
  · rw [buildUpdate_username_clear hno hmy (Or.inr hcl)] at hb
    cases hb

theorem usernameError_message (cfg : Config) :
    (usernameError cfg).Error
        = "Error from Bugzilla: Your username doesn\x27t look like an email address: "
          ++ cfg.Username
      ∧ Contains (usernameError cfg).Error "Your username doesn\x27t look like an email address"
      ∧ Contains (usernameError cfg).Error cfg.Username := by
  refine ⟨?_, ?_, ?_⟩
  · simp [usernameError, GoError.Error]
    rfl
  · unfold Contains
    refine ⟨"Error from Bugzilla: ".data, (": " ++ cfg.Username).data, ?_⟩
    simp [usernameError, GoError.Error, String.data_append]
  · unfold Contains
    refine ⟨"Error from Bugzilla: Your username doesn\x27t look like an email address: ".data,
      [], ?_⟩
    simp [usernameError, GoError.Error, String.data_append]

theorem Update_fails_of_no_build {L : Lib} {c : Client} {id : Int} {ch : Changes}
    {tr : List Event} {bug : Bug}
    (hfetch : c.GetBugEx L id false false = (tr, .ok bug))
    (h : ∀ up, c.buildUpdate L id ch bug ≠ .ok up) :
    ∃ err, c.Update L id ch = (tr, .error err) := by
  cases hd : Client.checkDeltaTS L ch bug with
  | some err => exact ⟨err, Update_of_collision hfetch hd⟩
  | none =>
    cases hb : c.buildUpdate L id ch bug with
    | error err => exact ⟨err, Update_of_build_error hfetch hd hb⟩
    | ok up => exact absurd hb (h up)

/-- Reading a bug starts with the fetch of its URL. -/
theorem GetBugEx_trace_head {L : Lib} {c : Client} {id : Int} {url : String} (wc wa : Bool)
    (hurl : c.getBugsURL L [id] [] = .ok url) :
    ∃ rest, (c.GetBugEx L id wc wa).1 = Event.fetch url :: rest := by
  unfold Client.GetBugEx
  rw [hurl]
  simp only []
  unfold Client.fetch
  cases Client.collect L (c.seriousClient.Get url) with
  | panic msg => exact ⟨[], rfl⟩
  | error err => exact ⟨[], rfl⟩
  | ok body =>
    simp only []
    repeat' split
    all_goals exact ⟨_, rfl⟩

/-- The calls of `Update` start with those of reading the bug. -/
theorem Update_trace_prefix (L : Lib) (c : Client) (id : Int) (ch : Changes) :
    ∃ rest, (c.Update L id ch).1 = (c.GetBugEx L id false false).1 ++ rest := by
  unfold Client.Update
  rcases c.GetBugEx L id false false with ⟨tr, out⟩
  cases out with
  | panic msg => exact ⟨[], by simp⟩
  | error err => exact ⟨[], by simp⟩
  | ok bug =>
    simp only []
    repeat' split
    all_goals first | exact ⟨_, rfl⟩ | exact ⟨[], (List.append_nil _).symm⟩

theorem optStr_ne_empty (s : String) : optStr s ≠ some "" := by
  unfold optStr
  by_cases h : s = ""
  · simp [h]
  · simp [h]

theorem priorityOf_ne_empty {ch : Changes}
    (hp : ch.SetPriority = "" ∨ (PriorityMap ch.SetPriority).isSome = true) :
    priorityOf ch ≠ some "" := by
  rcases priorityOf_cases hp with ⟨_, h⟩ | ⟨v, h, hv⟩
  · rw [h]; simp
  · rw [h]
    simp only [List.mem_cons, Prod.mk.injEq, List.mem_singleton, List.not_mem_nil,
      or_false] at hv
    rcases hv with h1 | h1 | h1 | h1 | h1 | h1 <;> (rw [h1.2]; decide)

theorem Update_CommentIsPrivate_ignored {L : Lib} {c : Client} {id : Int} {ch : Changes}
    (h : ch.AddComment = "") (b : Bool) :
    c.Update L id { ch with CommentIsPrivate := b } = c.Update L id ch := by
  have hb : ∀ bug, c.buildUpdate L id { ch with CommentIsPrivate := b } bug
      = c.buildUpdate L id ch bug := by
    intro bug
    have hc : ∀ up, stepComment { ch with CommentIsPrivate := b } up = stepComment ch up := by
      intro up
      simp [stepComment, h]
    unfold Client.buildUpdate
    simp only [hc]
    rfl
  unfold Client.Update
  split
  · rfl
  · rfl
  · rename_i tr bug _
    rw [hb bug]
    rfl

theorem toJson_dupe_of (u : updBug) :
    u.toJson.member "dupe_of" = if u.DupeOf = 0 then none else some (Json.num u.DupeOf) := by
  simp [updBug.toJson, Json.member, List.find?_append, find_omitList, find_omitPtr, find_omitInt,
    List.find?_cons]
  by_cases h : u.DupeOf = 0 <;> simp [h]

theorem toJson_ids (u : updBug) :
    u.toJson.member "ids" = some (Json.arr (u.Ids.map Json.num)) := by
  simp [updBug.toJson, Json.member, List.find?_append, List.find?_cons]

/-- Every write of `Update` is the one write of a wire update it built from a
fetched bug that passed the collision check. -/
theorem Update_writes_inv {L : Lib} {c : Client} {id : Int} {ch : Changes} {w : String × Json}
    (h : w ∈ writes (c.Update L id ch).1) :
    ∃ tr bug up, c.GetBugEx L id false false = (tr, .ok bug)
      ∧ Client.checkDeltaTS L ch bug = none
      ∧ c.buildUpdate L id ch bug = .ok up
      ∧ writes (c.Update L id ch).1 = [w]
      ∧ w.2 = up.toJson := by
  have hw := writes_GetBugEx L c id false false
  rcases hg : c.GetBugEx L id false false with ⟨tr, out⟩
  rw [hg] at hw
  cases out with
  | panic msg =>
    have : (c.Update L id ch).1 = tr := by simp [Client.Update, hg]
    rw [this] at h; simp only [] at hw; rw [hw] at h; cases h
  | error err =>
    have : (c.Update L id ch).1 = tr := by simp [Client.Update, hg]
    rw [this] at h; simp only [] at hw; rw [hw] at h; cases h
  | ok bug =>
    simp only [] at hw
    cases hd : Client.checkDeltaTS L ch bug with
    | some err => rw [Update_of_collision hg hd] at h; simp only [] at h; rw [hw] at h; cases h
    | none =>
      cases hb : c.buildUpdate L id ch bug with
      | error err =>
        rw [Update_of_build_error hg hd hb] at h; simp only [] at h; rw [hw] at h; cases h
      | ok up =>
        obtain ⟨url, _, hw1⟩ := writes_of_build_ok hg hd hb
        rw [hw1] at h
        simp only [List.mem_singleton] at h
        subst h
        exact ⟨tr, bug, up, rfl, hd, hb, hw1, rfl⟩

theorem Update_of_fetch_error {L : Lib} {c : Client} {id : Int} {ch : Changes} {tr : List Event}
    {e : GoError} (hfetch : c.GetBugEx L id false false = (tr, .error e)) :
    c.Update L id ch = (tr, .error e) := by
  simp only [Client.Update, hfetch]

/-- The error of the needinfo clear does not depend on the update built so
far. -/
theorem stepClearNeedinfo_error_indep {L : Lib} {cfg : Config} {bug : Bug} {ch : Changes} {up1 : updBug}
    {e : GoError} (h : stepClearNeedinfo L cfg bug ch up1 = .error e) (up2 : updBug) :
    stepClearNeedinfo L cfg bug ch up2 = .error e := by
  rw [stepClearNeedinfo_eq] at h
  rw [stepClearNeedinfo_eq]
  split
  · rename_i hreq
    rw [if_pos hreq] at h
    split
    · rename_i err herr
      rw [herr] at h
      exact h
    · rename_i target htarget
      rw [htarget] at h
      simp only [] at h
      split
      · rename_i hamb
        rw [if_pos hamb] at h
        exact h
      · rename_i hamb
        rw [if_neg hamb] at h
        cases h
  · rename_i hreq
    rw [if_neg hreq] at h
    cases h

theorem digitChar_ne_percent : ∀ m, m < 10 → Nat.digitChar m ≠ '%' := by
  decide

theorem toDigitsCore_no_percent (fuel n : Nat) (ds : List Char) (h : '%' ∉ ds) :
    '%' ∉ Nat.toDigitsCore 10 fuel n ds := by
  induction fuel generalizing n ds with
  | zero => simpa [Nat.toDigitsCore] using h
  | succ k ih =>
    unfold Nat.toDigitsCore
    have hd : '%' ∉ Nat.digitChar (n % 10) :: ds := by
      intro hm
      rcases List.mem_cons.1 hm with h1 | h1
      · exact digitChar_ne_percent _ (Nat.mod_lt n (by decide)) h1.symm
      · exact h h1
    simp only []
    split
    · exact hd
    · exact ih _ _ hd

theorem toString_nat_no_percent (n : Nat) : '%' ∉ (toString n).data := by
  show '%' ∉ (Nat.repr n).data
  unfold Nat.repr Nat.toDigits
  simpa [List.asString] using toDigitsCore_no_percent (n + 1) n [] (by simp)

theorem toString_int_no_percent (n : Int) : '%' ∉ (toString n).data := by
  cases n with
  | ofNat m => exact toString_nat_no_percent m
  | negSucc m =>
    show '%' ∉ ("-" ++ toString (m + 1)).data
    rw [String.data_append]
    intro h
    rcases List.mem_append.1 h with h1 | h1
    · revert h1; decide
    · exact toString_nat_no_percent _ h1

/-- The text of a structured error has a percent sign only if its message has
one. -/
theorem structured_no_percent (code : Int) (msg : String) (h : '%' ∉ msg.data) :
    '%' ∉ ("[" ++ toString code ++ "] " ++ msg).data := by
  simp only [String.data_append]
  intro hm
  simp only [List.mem_append] at hm
  rcases hm with ((h1 | h1) | h1) | h1
  · revert h1; decide
  · exact toString_int_no_percent code h1
  · revert h1; decide
  · exact h h1

theorem Errorf_plain (L : Lib) (s : String) (h : '%' ∉ s.data) : Errorf L s = .errorString s := by
  simp [Errorf, h]

theorem readAllLimited_ok {body read : Bytes} {bodyErr : Option GoError}
    (h : readAllLimited body bodyErr = .ok read) : read = body.take (10 * 1024 * 1024) := by
  unfold readAllLimited at h
  split at h
  · cases h; rfl
  · rename_i hlen
    split at h
    · cases h
    · cases h
      rw [List.take_of_length_le]
      omega

theorem collect_read_error {L : Lib} {status : Int} {body : Bytes} {bodyErr : Option GoError}
    {e : GoError} (h : readAllLimited body bodyErr = .error e) :
    Client.collect L (.response status body bodyErr) = .error (.ConnectionError e) := by
  simp only [Client.collect, h]

theorem collect_success {L : Lib} {status : Int} {body read : Bytes} {bodyErr : Option GoError}
    (h : readAllLimited body bodyErr = .ok read) (hs : 200 ≤ status ∧ status ≤ 299) :
    Client.collect L (.response status body bodyErr) = .ok read := by
  simp only [Client.collect, h]
  rw [if_neg]
  simpa using hs

theorem collect_structured {L : Lib} {status : Int} {body read : Bytes}
    {bodyErr : Option GoError} {res : responseError} {code : Int} {msg : String}
    (h : readAllLimited body bodyErr = .ok read) (hs : ¬ (200 ≤ status ∧ status ≤ 299))
    (hres : L.unmarshalError read = .ok res) (hcode : res.Code = some code)
    (hmsg : res.Message = some msg) :
    Client.collect L (.response status body bodyErr)
      = .error (.BugzillaError (Errorf L ("[" ++ toString code ++ "] " ++ msg))) := by
  simp only [Client.collect, h]
  rw [if_pos (by simpa using hs)]
  simp [Client.attemptDecodingError, hres, hcode, hmsg]

theorem collect_status_text {L : Lib} {status : Int} {body read : Bytes}
    {bodyErr : Option GoError}
    (h : readAllLimited body bodyErr = .ok read) (hs : ¬ (200 ≤ status ∧ status ≤ 299))
    (hres : ∀ res msg, L.unmarshalError read = .ok res → res.Message ≠ some msg) :
    Client.collect L (.response status body bodyErr)
      = .error (.BugzillaError (Errorf L (L.StatusText status))) := by
  simp only [Client.collect, h]
  rw [if_pos (by simpa using hs)]
  have hdec : Client.attemptDecodingError L read = .ok ("", false) := by
    unfold Client.attemptDecodingError
    cases hu : L.unmarshalError read with
    | error e => rfl
    | ok res =>
      cases hm : res.Message with
      | none => simp [hm]
      | some msg => exact absurd hm (hres res msg hu)
  rw [hdec]
  simp

theorem hasNeedinfoFor_eq_false_iff {L : Lib} (bug : Bug) {email : String} (he : email ≠ "") :
    bug.hasNeedinfoFor L email = false ↔ needinfoFlagsOf L bug email = [] := by
  unfold Bug.hasNeedinfoFor
  rw [findNeedinfosFor_email bug email he]
  simp

theorem requestedEntries_eq {L : Lib} (bug : Bug) (ch : Changes) :
    requestedEntries L bug ch
      = if ch.SetNeedinfo ≠ "" ∧ needinfoFlagsOf L bug ch.SetNeedinfo = []
          then [newNeedinfo ch.SetNeedinfo] else [] := by
  unfold requestedEntries
  by_cases he : ch.SetNeedinfo = ""
  · simp [he]
  · have h := hasNeedinfoFor_eq_false_iff (L := L) bug he
    by_cases hn : needinfoFlagsOf L bug ch.SetNeedinfo = []
    · simp [he, hn, h.2 hn]
    · have hh : ¬ bug.hasNeedinfoFor L ch.SetNeedinfo = false := fun hf => hn (h.1 hf)
      simp [he, hn, hh]

/-- The identifiers the needinfo clear of a built wire update was given are
those of the flags `clearedFlags` names. -/
theorem buildUpdate_cleared {L : Lib} {c : Client} {id : Int} {ch : Changes} {bug : Bug} {up : updBug}
    (h : c.buildUpdate L id ch bug = .ok up) :
    up.Flags = requestedEntries L bug ch
      ++ (clearedFlags L c.Config bug ch).map (fun f => clearEntry f.ID) := by
  obtain ⟨ids, hflags, hcase⟩ := buildUpdate_Flags h
  rw [hflags]
  congr 1
  rcases hcase with ⟨hr, hc, hnil⟩ | ⟨hreq, target, htarget, hids⟩
  · simp [clearedFlags, hr, hc, hnil]
  · have hnot : ¬ (ch.RemoveNeedinfo = "" ∧ ch.ClearNeedinfo = false) := by
      intro hh
      rcases hreq with h1 | h1
      · exact h1 hh.1
      · rw [hh.2] at h1; cases h1
    unfold clearedFlags
    rw [if_neg hnot, hids]
    unfold clearTarget at htarget
    simp only [] at htarget
    by_cases hmy : ch.ClearMyNeedinfos = true
    · rw [if_pos hmy] at htarget
      rw [if_pos hmy]
      unfold Config.emailAddress at htarget
      simp only [] at htarget
      split at htarget
      · cases htarget
      · rename_i hat
        cases htarget
        have hne : c.Config.Username ≠ "" := by
          intro he
          rw [he] at hat
          simp at hat
        rw [findNeedinfosFor_email bug _ hne, List.map_map]
        rfl
    · rw [if_neg hmy] at htarget
      rw [if_neg hmy]
      by_cases hcl : ch.ClearNeedinfo = true
      · rw [if_pos hcl] at htarget
        rw [if_pos hcl]
        cases htarget
        rw [findNeedinfosFor_empty, List.map_map]
        rfl
      · rw [if_neg hcl] at htarget
        rw [if_neg hcl]
        cases htarget
        have hne : ch.RemoveNeedinfo ≠ "" := by
          rcases hreq with h1 | h1
          · exact h1
          · exact absurd h1 hcl
        rw [findNeedinfosFor_email bug _ hne, List.map_map]
        rfl

theorem clearedFlags_sublist {L : Lib} (cfg : Config) (bug : Bug) (ch : Changes) :
    (clearedFlags L cfg bug ch).Sublist bug.Flags := by
  unfold clearedFlags needinfoFlagsOf needinfoFlags
  split_ifs
  · exact List.nil_sublist _
  · exact List.filter_sublist _
  · exact List.filter_sublist _
  · exact List.filter_sublist _

theorem stepClearNeedinfo_skip {L : Lib} (cfg : Config) (bug : Bug) (ch : Changes)
    (hremove : ch.RemoveNeedinfo = "") (hclear : ch.ClearNeedinfo = false) (up : updBug) :
    stepClearNeedinfo L cfg bug ch up = .ok up := by
  simp [stepClearNeedinfo, hremove, hclear]

/-- With ClearMyNeedinfos and ClearNeedinfo unset and RemoveNeedinfo = e not
empty, the target of the clear is e: the clear entries of the wire update are
those of the needinfo flags whose requestee is e, case ignored. -/
theorem removeNeedinfo_target (L : Lib) (c : Client) (id : Int) (changes : Changes)
    (tr : List Event) (bug : Bug)
    (hfetch : c.GetBugEx L id false false = (tr, .ok bug))
    (hdelta : Client.checkDeltaTS L changes bug = none)
    (hmy : changes.ClearMyNeedinfos = false)
    (hclear : changes.ClearNeedinfo = false)
    (he : changes.RemoveNeedinfo ≠ "")
    (hlater : laterStepsPass c.Config changes) :
    ∃ url up, c.buildUpdate L id changes bug = .ok up
      ∧ writes (c.Update L id changes).1 = [(url, up.toJson)]
      ∧ clearEntriesOf up
        = (needinfoFlagsOf L bug changes.RemoveNeedinfo).map (fun f => clearEntry f.ID) := by
  have htarget : clearTarget c.Config changes = .ok changes.RemoveNeedinfo := by
    simp [clearTarget, hmy, hclear]
  have hstep := stepClearNeedinfo_ok (L := L) c.Config bug
    (stepSetNeedinfo L bug changes (stepComment changes { Ids := [id] }))
    (Or.inl he) htarget (by simp [he])
  obtain ⟨up, hbuild, hflags⟩ := buildUpdate_of_clear hstep hlater
  obtain ⟨url, _, hw⟩ := writes_of_build_ok hfetch hdelta hbuild
  refine ⟨url, up, hbuild, hw, ?_⟩
  have hf : up.Flags = requestedEntries L bug changes
      ++ (bug.findNeedinfosFor L changes.RemoveNeedinfo).map clearEntry := by
    rw [hflags]
    simp only []
    rw [base_Flags]
    rfl
  rw [clearEntriesOf_eq hf, findNeedinfosFor_email bug _ he, List.map_map]
  rfl

/-! ## The claims -/

/-- C1. Ambiguous clear is rejected: when the fetched bug has two or more
needinfo flags, the collision check passes and the changes have ClearNeedinfo
set, ClearAllNeedinfos and ClearMyNeedinfos unset and RemoveNeedinfo empty,
`Update` ends with the RequestError of message "More than one needinfo found"
and its calls are those of the fetch: nothing is written. -/
theorem C1_ambiguous_clear_rejected (L : Lib) (c : Client) (id : Int) (changes : Changes)
    (tr : List Event) (bug : Bug)
    (hfetch : c.GetBugEx L id false false = (tr, .ok bug))
    (hdelta : Client.checkDeltaTS L changes bug = none)
    (hclear : changes.ClearNeedinfo = true)
    (hall : changes.ClearAllNeedinfos = false)
    (hmy : changes.ClearMyNeedinfos = false)
    (hremove : changes.RemoveNeedinfo = "")
    (hmany : 2 ≤ (needinfoFlags bug).length) :
    c.Update L id changes = (tr, .error (.RequestError (.errorString "More than one needinfo found")))
      ∧ Contains (GoError.RequestError (.errorString "More than one needinfo found")).Error
          "More than one needinfo found"
      ∧ writes (c.Update L id changes).1 = [] := by
  have hbuild : c.buildUpdate L id changes bug
      = .error (.RequestError (.errorString "More than one needinfo found")) := by
    apply buildUpdate_clear_error
    rw [stepClearNeedinfo_eq]
    have hlen : (bug.findNeedinfosFor L "").length > 1 := by
      rw [findNeedinfosFor_empty, List.length_map]; omega
    simp [clearTarget, hclear, hall, hmy, hremove, hlen]
  have hupd := Update_of_build_error hfetch hdelta hbuild
  refine ⟨hupd, by decide, ?_⟩
  rw [hupd]
  exact writes_of_fetch hfetch

theorem C1_witness :
    (makeClient "").GetBugEx (testLib testBug [testAck]) 101234 false false
        = ([Event.fetch testURL], .ok testBug)
      ∧ 2 ≤ (needinfoFlags testBug).length
      ∧ ((makeClient "").Update (testLib testBug [testAck]) 101234 { ClearNeedinfo := true }
          = ([Event.fetch testURL], .error (.RequestError (.errorString "More than one needinfo found")))
        ∧ Contains (GoError.RequestError (.errorString "More than one needinfo found")).Error
            "More than one needinfo found"
        ∧ writes ((makeClient "").Update (testLib testBug [testAck]) 101234
            { ClearNeedinfo := true }).1 = []) :=
  ⟨rfl, by decide,
    C1_ambiguous_clear_rejected (testLib testBug [testAck]) (makeClient "") 101234
      { ClearNeedinfo := true } [Event.fetch testURL] testBug rfl rfl rfl rfl rfl rfl (by decide)⟩

/-- C2. Clear-all clears exactly the matched set: with ClearNeedinfo and
ClearAllNeedinfos set, ClearMyNeedinfos unset and SetNeedinfo empty, `Update`
writes one wire update, and its flag list is one entry of the flag ID and the
status `X`, with nothing else set, for each needinfo flag of the bug, in the
order of the bug. -/
theorem C2_clear_all_exact (L : Lib) (c : Client) (id : Int) (changes : Changes)
    (tr : List Event) (bug : Bug)
    (hfetch : c.GetBugEx L id false false = (tr, .ok bug))
    (hdelta : Client.checkDeltaTS L changes bug = none)
    (hclear : changes.ClearNeedinfo = true)
    (hall : changes.ClearAllNeedinfos = true)
    (hmy : changes.ClearMyNeedinfos = false)
    (hset : changes.SetNeedinfo = "")
    (hlater : laterStepsPass c.Config changes) :
    ∃ url up, c.buildUpdate L id changes bug = .ok up
      ∧ writes (c.Update L id changes).1 = [(url, up.toJson)]
      ∧ up.Flags = (needinfoFlags bug).map (fun f => clearEntry f.ID) := by
  have htarget : clearTarget c.Config changes = .ok "" := by
    simp [clearTarget, hmy, hclear]
  have hstep := stepClearNeedinfo_ok (L := L) c.Config bug
    (stepSetNeedinfo L bug changes (stepComment changes { Ids := [id] }))
    (Or.inr hclear) htarget (by simp [hall])
  obtain ⟨up, hbuild, hflags⟩ := buildUpdate_of_clear hstep hlater
  obtain ⟨url, _, hw⟩ := writes_of_build_ok hfetch hdelta hbuild
  refine ⟨url, up, hbuild, hw, ?_⟩
  rw [hflags]
  simp only []
  rw [base_Flags, findNeedinfosFor_empty]
  simp [hset]

theorem C2_witness :
    (needinfoFlags testBug).map (fun f => clearEntry f.ID)
        = [clearEntry 264343, clearEntry 266294, clearEntry 266299]
      ∧ ∃ url up, (makeClient "").buildUpdate (testLib testBug [testAck]) 101234
            { ClearNeedinfo := true, ClearAllNeedinfos := true } testBug = .ok up
          ∧ writes ((makeClient "").Update (testLib testBug [testAck]) 101234
              { ClearNeedinfo := true, ClearAllNeedinfos := true }).1 = [(url, up.toJson)]
          ∧ up.Flags = (needinfoFlags testBug).map (fun f => clearEntry f.ID) :=
  ⟨by decide,
    C2_clear_all_exact (testLib testBug [testAck]) (makeClient "") 101234
      { ClearNeedinfo := true, ClearAllNeedinfos := true } [Event.fetch testURL] testBug
      rfl rfl rfl rfl rfl rfl (by decide)⟩

/-- C3. Collision detection: for every fetched bug, `Update` ends with the
error of the collision check and without a write if and only if CheckDeltaTS
is set and the fetched LastChangeTime and DeltaTS are different instants; the
message of that error contains "collision"; and when CheckDeltaTS is unset the
value of DeltaTS does not change what `Update` does. -/
theorem C3_collision_detection (L : Lib) (c : Client) (id : Int) (changes : Changes)
    (tr : List Event) (bug : Bug)
    (hfetch : c.GetBugEx L id false false = (tr, .ok bug)) :
    (((c.Update L id changes).2 = .error (collisionError L bug)
          ∧ writes (c.Update L id changes).1 = [])
        ↔ (changes.CheckDeltaTS = true ∧ bug.LastChangeTime.Equal changes.DeltaTS = false))
      ∧ Contains (collisionError L bug).Error "collision"
      ∧ (changes.CheckDeltaTS = false →
          ∀ t, c.Update L id { changes with DeltaTS := t } = c.Update L id changes) := by
  refine ⟨collision_iff hfetch, ?_, fun h t => Update_DeltaTS_ignored h t⟩
  unfold Contains collisionError
  refine ⟨"Error from Bugzilla: likely mid-air ".data,
    (": the bug has been updated at " ++ L.timeString bug.LastChangeTime).data, ?_⟩
  simp [GoError.Error, String.data_append]

theorem C3_witness :
    (makeClient "").GetBugEx (testLib testBug [testAck]) 101234 false false
        = ([Event.fetch testURL], .ok testBug)
      ∧ ((makeClient "").Update (testLib testBug [testAck]) 101234
            { AddComment := "Some comment", DeltaTS := { sec := 63816861723 },
              CheckDeltaTS := true }).2
          = .error (collisionError (testLib testBug [testAck]) testBug)
      ∧ writes ((makeClient "").Update (testLib testBug [testAck]) 101234
            { AddComment := "Some comment", DeltaTS := { sec := 63816861723 },
              CheckDeltaTS := true }).1 = [] :=
  ⟨rfl, (C3_collision_detection (testLib testBug [testAck]) (makeClient "") 101234
    { AddComment := "Some comment", DeltaTS := { sec := 63816861723 }, CheckDeltaTS := true }
    [Event.fetch testURL] testBug rfl).1.2 ⟨rfl, rfl⟩⟩

/-- C4 (as stated) fails: the fetched time 2023-04-12T01:02:03Z and the same
instant written with the offset +02:00 pass the collision check, and the
update is written. -/
theorem C4_counterexample :
    testBug.LastChangeTime.sec = (63816858123 : Int)
      ∧ testBug.LastChangeTime.nsec = 0
      ∧ testBug.LastChangeTime.loc ≠ (7200 : Int)
      ∧ testBug.LastChangeTime ≠ { sec := 63816858123, loc := 7200 }
      ∧ (makeClient "").Update (testLib testBug [testAck]) 101234
          { AddComment := "Some comment", DeltaTS := { sec := 63816858123, loc := 7200 },
            CheckDeltaTS := true }
        = ([Event.fetch testURL,
            Event.put testURL (Json.obj [("ids", Json.arr [Json.num 101234]),
              ("comment", Json.obj [("body", Json.str "Some comment"),
                ("is_private", Json.bool false)])])],
           .ok testAck) :=
  ⟨rfl, rfl, by decide, by decide, rfl⟩

/-- C4 (amended). The collision check compares instants: a fetched time and a
`DeltaTS` of the same second and nanosecond pass it, whatever their locations,
and `Update` does not end with the collision error. -/
theorem C4_same_instant_passes (L : Lib) (c : Client) (id : Int) (changes : Changes)
    (tr : List Event) (bug : Bug)
    (hfetch : c.GetBugEx L id false false = (tr, .ok bug))
    (hsec : bug.LastChangeTime.sec = changes.DeltaTS.sec)
    (hnsec : bug.LastChangeTime.nsec = changes.DeltaTS.nsec) :
    Client.checkDeltaTS L changes bug = none
      ∧ ¬ ((c.Update L id changes).2 = .error (collisionError L bug)
          ∧ writes (c.Update L id changes).1 = []) := by
  have heq : bug.LastChangeTime.Equal changes.DeltaTS = true := by
    simp [Time.Equal, hsec, hnsec]
  constructor
  · rw [checkDeltaTS_eq]
    simp [heq]
  · rw [collision_iff hfetch]
    simp [heq]

theorem C4_witness :
    testBug.LastChangeTime.loc ≠ (7200 : Int)
      ∧ (Client.checkDeltaTS (testLib testBug [testAck])
            { DeltaTS := { sec := 63816858123, loc := 7200 }, CheckDeltaTS := true } testBug = none
        ∧ ¬ (((makeClient "").Update (testLib testBug [testAck]) 101234
                { DeltaTS := { sec := 63816858123, loc := 7200 }, CheckDeltaTS := true }).2
              = .error (collisionError (testLib testBug [testAck]) testBug)
            ∧ writes ((makeClient "").Update (testLib testBug [testAck]) 101234
                { DeltaTS := { sec := 63816858123, loc := 7200 }, CheckDeltaTS := true }).1 = [])) :=
  ⟨by decide, C4_same_instant_passes (testLib testBug [testAck]) (makeClient "") 101234
    { DeltaTS := { sec := 63816858123, loc := 7200 }, CheckDeltaTS := true }
    [Event.fetch testURL] testBug rfl rfl rfl⟩

/-- C5. With RemoveNeedinfo = user3 and ClearNeedinfo set, ClearAllNeedinfos
unset, on the bug of the tests: the target of the clear is the wildcard, not
user3, and the guard against an ambiguous clear is passed over, so the wire
update clears the three needinfos of the bug, the needinfo 264343 of user1
with them, while ClearNeedinfo alone is refused as ambiguous on that bug. -/
theorem C5_clear_overrides_remove :
    (makeClient "").buildUpdate (testLib testBug [testAck]) 101234
        { RemoveNeedinfo := "user3@foobarcorp.example.com", ClearNeedinfo := true } testBug
        = .ok { Ids := [101234],
                Flags := [clearEntry 264343, clearEntry 266294, clearEntry 266299] }
      ∧ (needinfoFlagsOf (testLib testBug [testAck]) testBug
            "user3@foobarcorp.example.com").map (fun f => clearEntry f.ID)
        = [clearEntry 266294, clearEntry 266299]
      ∧ clearTarget (makeClient "").Config
          { RemoveNeedinfo := "user3@foobarcorp.example.com", ClearNeedinfo := true } = .ok ""
      ∧ (makeClient "").Update (testLib testBug [testAck]) 101234
          { RemoveNeedinfo := "user3@foobarcorp.example.com", ClearNeedinfo := true }
        = ([Event.fetch testURL,
            Event.put testURL (Json.obj [("ids", Json.arr [Json.num 101234]),
              ("flags", Json.arr [
                Json.obj [("status", Json.str "X"), ("id", Json.num 264343)],
                Json.obj [("status", Json.str "X"), ("id", Json.num 266294)],
                Json.obj [("status", Json.str "X"), ("id", Json.num 266299)]])])],
           .ok testAck)
      ∧ (makeClient "").Update (testLib testBug [testAck]) 101234 { ClearNeedinfo := true }
        = ([Event.fetch testURL], .error ambiguousError) :=
  ⟨rfl, by decide, rfl, rfl, rfl⟩

/-- C6. RemoveNeedinfo clears all needinfos of the address: when RemoveNeedinfo
= e is the only field set, the wire update is built, whatever the number of
matches, and it holds the bug ID and one clear entry for each needinfo flag
whose requestee is e, case ignored, in the order of the bug; `Update` writes
it. -/
theorem C6_remove_clears_all_of_address (L : Lib) (c : Client) (id : Int) (e : String)
    (tr : List Event) (bug : Bug)
    (hfetch : c.GetBugEx L id false false = (tr, .ok bug))
    (he : e ≠ "") :
    c.buildUpdate L id { RemoveNeedinfo := e } bug
        = .ok { Ids := [id], Flags := (needinfoFlagsOf L bug e).map (fun f => clearEntry f.ID) }
      ∧ ∃ url, writes (c.Update L id { RemoveNeedinfo := e }).1
          = [(url, updBug.toJson
              { Ids := [id], Flags := (needinfoFlagsOf L bug e).map (fun f => clearEntry f.ID) })] := by
  have hbuild : c.buildUpdate L id { RemoveNeedinfo := e } bug
      = .ok { Ids := [id], Flags := (needinfoFlagsOf L bug e).map (fun f => clearEntry f.ID) } := by
    simp [Client.buildUpdate, newBugUpdate, stepComment, stepSetNeedinfo, stepClearNeedinfo_eq,
      clearTarget, he, findNeedinfosFor_email, stepFields, stepPriority, stepCc, stepStatus]
  refine ⟨hbuild, ?_⟩
  have hdelta : Client.checkDeltaTS L { RemoveNeedinfo := e } bug = none := rfl
  obtain ⟨url, _, hw⟩ := writes_of_build_ok hfetch hdelta hbuild
  exact ⟨url, hw⟩

theorem C6_witness :
    (needinfoFlagsOf (testLib testBug [testAck]) testBug
          "user3@foobarcorp.example.com").map (fun f => clearEntry f.ID)
        = [clearEntry 266294, clearEntry 266299]
      ∧ ((makeClient "").buildUpdate (testLib testBug [testAck]) 101234
            { RemoveNeedinfo := "user3@foobarcorp.example.com" } testBug
          = .ok { Ids := [101234],
                  Flags := (needinfoFlagsOf (testLib testBug [testAck]) testBug
                    "user3@foobarcorp.example.com").map (fun f => clearEntry f.ID) }
        ∧ ∃ url, writes ((makeClient "").Update (testLib testBug [testAck]) 101234
            { RemoveNeedinfo := "user3@foobarcorp.example.com" }).1
          = [(url, updBug.toJson
              { Ids := [101234],
                Flags := (needinfoFlagsOf (testLib testBug [testAck]) testBug
                  "user3@foobarcorp.example.com").map (fun f => clearEntry f.ID) })])
      ∧ (needinfoFlagsOf (testLib accentBug [testAck]) accentBug "é@x.com").map
            (fun f => clearEntry f.ID) = [clearEntry 1]
      ∧ (makeClient "").buildUpdate (testLib accentBug [testAck]) 101234
            { RemoveNeedinfo := "é@x.com" } accentBug
          = .ok { Ids := [101234],
                  Flags := (needinfoFlagsOf (testLib accentBug [testAck]) accentBug
                    "é@x.com").map (fun f => clearEntry f.ID) } :=
  ⟨by decide,
    C6_remove_clears_all_of_address (testLib testBug [testAck]) (makeClient "") 101234
      "user3@foobarcorp.example.com" [Event.fetch testURL] testBug rfl (by decide),
    by decide,
    (C6_remove_clears_all_of_address (testLib accentBug [testAck]) (makeClient "") 101234
      "é@x.com" [Event.fetch testURL] accentBug rfl (by decide)).1⟩

/-- C7. Idempotent needinfo set: with an open needinfo of the email on the
bug, the wire update has no entry marked new. -/
theorem C7_idempotent_needinfo_set (L : Lib) (c : Client) (id : Int) (changes : Changes)
    (tr : List Event) (bug : Bug) (up : updBug)
    (hfetch : c.GetBugEx L id false false = (tr, .ok bug))
    (hdelta : Client.checkDeltaTS L changes bug = none)
    (hflag : ∃ f ∈ bug.Flags, f.Name = "needinfo" ∧ f.Status = "?"
      ∧ ToLower L f.Requestee = ToLower L changes.SetNeedinfo)
    (hbuild : c.buildUpdate L id changes bug = .ok up) :
    (∀ f ∈ up.Flags, f.New = false)
      ∧ ∃ url, writes (c.Update L id changes).1 = [(url, up.toJson)] := by
  obtain ⟨f, hf, hn, _, hr⟩ := hflag
  have hhas := hasNeedinfoFor_of_flag hf hn hr
  obtain ⟨ids, hflags, _⟩ := buildUpdate_Flags hbuild
  obtain ⟨url, _, hw⟩ := writes_of_build_ok hfetch hdelta hbuild
  refine ⟨?_, url, hw⟩
  intro g hg
  rw [hflags] at hg
  simp only [requestedEntries, hhas, ne_eq, Bool.true_eq_false, and_false, if_false,
    List.nil_append, List.mem_map] at hg
  obtain ⟨i, _, hi⟩ := hg
  subst hi
  rfl

theorem C7_witness :
    (∃ f ∈ testBug.Flags, f.Name = "needinfo" ∧ f.Status = "?"
        ∧ ToLower (testLib testBug [testAck]) f.Requestee
          = ToLower (testLib testBug [testAck]) "User1@FoobarCorp.example.com")
      ∧ (makeClient "").Update (testLib testBug [testAck]) 101234
          { SetNeedinfo := "User1@FoobarCorp.example.com" }
        = ([Event.fetch testURL,
            Event.put testURL (Json.obj [("ids", Json.arr [Json.num 101234])])], .ok testAck)
      ∧ ((∀ f ∈ ({ Ids := [101234] } : updBug).Flags, f.New = false)
        ∧ ∃ url, writes ((makeClient "").Update (testLib testBug [testAck]) 101234
            { SetNeedinfo := "User1@FoobarCorp.example.com" }).1
          = [(url, updBug.toJson { Ids := [101234] })])
      ∧ (∃ f ∈ accentBug.Flags, f.Name = "needinfo" ∧ f.Status = "?"
        ∧ f.Requestee = "É@x.com"
        ∧ ToLower (testLib accentBug [testAck]) f.Requestee
          = ToLower (testLib accentBug [testAck]) "é@x.com")
      ∧ (makeClient "").buildUpdate (testLib accentBug [testAck]) 101234
          { SetNeedinfo := "é@x.com" } accentBug = .ok { Ids := [101234] }
      ∧ ∃ url, writes ((makeClient "").Update (testLib accentBug [testAck]) 101234
            { SetNeedinfo := "é@x.com" }).1
          = [(url, updBug.toJson { Ids := [101234] })] :=
  ⟨by decide, rfl,
    C7_idempotent_needinfo_set (testLib testBug [testAck]) (makeClient "") 101234
      { SetNeedinfo := "User1@FoobarCorp.example.com" } [Event.fetch testURL] testBug
      { Ids := [101234] } rfl rfl (by decide) rfl,
    by decide, rfl,
    (C7_idempotent_needinfo_set (testLib accentBug [testAck]) (makeClient "") 101234
      { SetNeedinfo := "é@x.com" } [Event.fetch testURL] accentBug
      { Ids := [101234] } rfl rfl (by decide) rfl).2⟩

/-- C8 (as stated) fails: the only needinfo flag of the bug for the email has
status `+`, none has status `?`, and the wire update requests no needinfo. -/
theorem C8_counterexample :
    (¬ ∃ f ∈ answeredBug.Flags, f.Name = "needinfo" ∧ f.Status = "?"
        ∧ ToLower (testLib answeredBug [testAck]) f.Requestee
          = ToLower (testLib answeredBug [testAck]) "user@foobar.com")
      ∧ (makeClient "").buildUpdate (testLib answeredBug [testAck]) 101234
          { SetNeedinfo := "user@foobar.com" } answeredBug
        = .ok { Ids := [101234] }
      ∧ (makeClient "").Update (testLib answeredBug [testAck]) 101234
          { SetNeedinfo := "user@foobar.com" }
        = ([Event.fetch testURL,
            Event.put testURL (Json.obj [("ids", Json.arr [Json.num 101234])])], .ok testAck) :=
  ⟨by decide, rfl, rfl⟩

/-- C8 (amended). When no flag named needinfo of the bug, of any status, has
the email as requestee, case ignored, the wire update starts with the one new
needinfo entry for the email, and no other entry is new. -/
theorem C8_needinfo_set_creates (L : Lib) (c : Client) (id : Int) (changes : Changes)
    (tr : List Event) (bug : Bug) (up : updBug)
    (hfetch : c.GetBugEx L id false false = (tr, .ok bug))
    (hdelta : Client.checkDeltaTS L changes bug = none)
    (hemail : changes.SetNeedinfo ≠ "")
    (hnone : ∀ f ∈ bug.Flags, f.Name = "needinfo" →
      ToLower L f.Requestee ≠ ToLower L changes.SetNeedinfo)
    (hbuild : c.buildUpdate L id changes bug = .ok up) :
    (∃ rest, up.Flags
          = { New := true, Name := "needinfo", Status := "?", Requestee := changes.SetNeedinfo }
            :: rest
        ∧ ∀ f ∈ rest, f.New = false)
      ∧ ∃ url, writes (c.Update L id changes).1 = [(url, up.toJson)] := by
  have hhas := hasNeedinfoFor_false hemail hnone
  obtain ⟨ids, hflags, _⟩ := buildUpdate_Flags hbuild
  obtain ⟨url, _, hw⟩ := writes_of_build_ok hfetch hdelta hbuild
  refine ⟨⟨ids.map clearEntry, ?_, ?_⟩, url, hw⟩
  · rw [hflags]
    simp [requestedEntries, hhas, hemail, newNeedinfo]
  · intro g hg
    simp only [List.mem_map] at hg
    obtain ⟨i, _, hi⟩ := hg
    subst hi
    rfl

theorem C8_witness :
    (makeClient "").Update (testLib testBug [testAck]) 101234 { SetNeedinfo := "user@foobar.com" }
        = ([Event.fetch testURL,
            Event.put testURL (Json.obj [("ids", Json.arr [Json.num 101234]),
              ("flags", Json.arr [Json.obj [("name", Json.str "needinfo"),
                ("status", Json.str "?"), ("requestee", Json.str "user@foobar.com"),
                ("new", Json.bool true)]])])],
           .ok testAck)
      ∧ ((∃ rest, ({ Ids := [101234], Flags := [newNeedinfo "user@foobar.com"] } : updBug).Flags
              = { New := true, Name := "needinfo", Status := "?", Requestee := "user@foobar.com" }
                :: rest
            ∧ ∀ f ∈ rest, f.New = false)
        ∧ ∃ url, writes ((makeClient "").Update (testLib testBug [testAck]) 101234
            { SetNeedinfo := "user@foobar.com" }).1
          = [(url, updBug.toJson
              { Ids := [101234], Flags := [newNeedinfo "user@foobar.com"] })]) :=
  ⟨rfl, C8_needinfo_set_creates (testLib testBug [testAck]) (makeClient "") 101234
    { SetNeedinfo := "user@foobar.com" } [Event.fetch testURL] testBug
    { Ids := [101234], Flags := [newNeedinfo "user@foobar.com"] }
    rfl rfl (by decide) (by decide) rfl⟩

/-- C9 (as stated) fails: the needinfo flag 7 has status `+`, no flag of the
bug has status `?`, and the wire update clears flag 7. -/
theorem C9_counterexample :
    (¬ ∃ g ∈ answeredBug.Flags, g.Name = "needinfo" ∧ g.Status = "?" ∧ g.ID = 7)
      ∧ (makeClient "").buildUpdate (testLib answeredBug [testAck]) 101234
          { ClearNeedinfo := true } answeredBug
        = .ok { Ids := [101234], Flags := [{ ID := 7, Status := "X" }] }
      ∧ (makeClient "").Update (testLib answeredBug [testAck]) 101234 { ClearNeedinfo := true }
        = ([Event.fetch testURL,
            Event.put testURL (Json.obj [("ids", Json.arr [Json.num 101234]),
              ("flags", Json.arr [Json.obj [("status", Json.str "X"), ("id", Json.num 7)]])])],
           .ok testAck) :=
  ⟨by decide, rfl, rfl⟩

/-- C9 (amended). Every entry of status `X` of the wire update is the clear of
a flag of the bug whose name is needinfo; the status of the flag is not
examined. -/
theorem C9_clears_are_needinfo_flags (L : Lib) (c : Client) (id : Int) (changes : Changes)
    (tr : List Event) (bug : Bug) (up : updBug)
    (hfetch : c.GetBugEx L id false false = (tr, .ok bug))
    (hdelta : Client.checkDeltaTS L changes bug = none)
    (hbuild : c.buildUpdate L id changes bug = .ok up) :
    (∀ f ∈ up.Flags, f.Status = "X" →
        ∃ g ∈ bug.Flags, g.Name = "needinfo" ∧ f = { ID := g.ID, Status := "X" })
      ∧ ∃ url, writes (c.Update L id changes).1 = [(url, up.toJson)] := by
  obtain ⟨ids, hflags, hcase⟩ := buildUpdate_Flags hbuild
  obtain ⟨url, _, hw⟩ := writes_of_build_ok hfetch hdelta hbuild
  refine ⟨?_, url, hw⟩
  intro f hf hx
  rw [hflags, List.mem_append] at hf
  rcases hf with hf | hf
  · exfalso
    unfold requestedEntries at hf
    split at hf
    · simp only [List.mem_singleton] at hf
      subst hf
      simp [newNeedinfo] at hx
    · cases hf
  · simp only [List.mem_map] at hf
    obtain ⟨i, hi, hfi⟩ := hf
    rcases hcase with ⟨_, _, hnil⟩ | ⟨_, target, _, hids⟩
    · subst hnil; cases hi
    · subst hids
      obtain ⟨g, hg, hn, hid⟩ := mem_findNeedinfosFor hi
      refine ⟨g, hg, hn, ?_⟩
      rw [← hfi, hid]
      rfl

theorem C9_witness :
    (makeClient "user1@foobarcorp.example.com").Update (testLib testBug [testAck]) 101234
          { ClearNeedinfo := true, ClearMyNeedinfos := true }
        = ([Event.fetch testURL,
            Event.put testURL (Json.obj [("ids", Json.arr [Json.num 101234]),
              ("flags", Json.arr [Json.obj [("status", Json.str "X"), ("id", Json.num 264343)]])])],
           .ok testAck)
      ∧ ((∀ f ∈ ({ Ids := [101234], Flags := [{ ID := 264343, Status := "X" }] } : updBug).Flags,
            f.Status = "X" →
            ∃ g ∈ testBug.Flags, g.Name = "needinfo" ∧ f = { ID := g.ID, Status := "X" })
        ∧ ∃ url, writes ((makeClient "user1@foobarcorp.example.com").Update
            (testLib testBug [testAck]) 101234
            { ClearNeedinfo := true, ClearMyNeedinfos := true }).1
          = [(url, updBug.toJson
              { Ids := [101234], Flags := [{ ID := 264343, Status := "X" }] })]) :=
  ⟨rfl, C9_clears_are_needinfo_flags (testLib testBug [testAck])
    (makeClient "user1@foobarcorp.example.com") 101234
    { ClearNeedinfo := true, ClearMyNeedinfos := true } [Event.fetch testURL] testBug
    { Ids := [101234], Flags := [{ ID := 264343, Status := "X" }] } rfl rfl rfl⟩

/-- C10. Empty changes round-trip: for every fetched bug, `Update` with the
zero Changes builds the wire update that has the ID alone, every other field
absent, and writes it: the body of the `put` is the document with the one
member `ids`. -/
theorem C10_empty_changes (L : Lib) (c : Client) (id : Int) (tr : List Event) (bug : Bug)
    (hfetch : c.GetBugEx L id false false = (tr, .ok bug)) :
    c.buildUpdate L id {} bug = .ok { Ids := [id] }
      ∧ ∃ url, (c.Update L id {}).1
          = tr ++ [Event.put url (Json.obj [("ids", Json.arr [Json.num id])])] := by
  have hbuild : c.buildUpdate L id {} bug = .ok { Ids := [id] } := by
    simp [Client.buildUpdate, newBugUpdate, stepComment, stepSetNeedinfo, stepClearNeedinfo,
      stepFields, stepPriority, stepCc, stepStatus]
  refine ⟨hbuild, ?_⟩
  have hdelta : Client.checkDeltaTS L {} bug = none := rfl
  obtain ⟨url, _, hupd⟩ := Update_of_build_ok hfetch hdelta hbuild
  refine ⟨url, ?_⟩
  rw [hupd]
  simp [updBug.toJson, omitList, omitPtr, omitInt]

theorem C10_witness :
    (makeClient "").Update (testLib testBug [testAck]) 101234 {}
        = ([Event.fetch testURL,
            Event.put testURL (Json.obj [("ids", Json.arr [Json.num 101234])])], .ok testAck)
      ∧ ((makeClient "").buildUpdate (testLib testBug [testAck]) 101234 {} testBug = .ok { Ids := [101234] }
        ∧ ∃ url, ((makeClient "").Update (testLib testBug [testAck]) 101234 {}).1
          = [Event.fetch testURL]
              ++ [Event.put url (Json.obj [("ids", Json.arr [Json.num 101234])])]) :=
  ⟨rfl, C10_empty_changes (testLib testBug [testAck]) (makeClient "") 101234
    [Event.fetch testURL] testBug rfl⟩

/-- C12 (as stated) fails: with SetPriority = "wrong", which is no key, and an
ambiguous ClearNeedinfo on the bug of the tests, `Update` returns the error of
the clear, whose message does not hold "invalid priority value"; with a
mismatch of the collision check it returns the error of the collision. -/
theorem C12_counterexample :
    "wrong" ∉ ["P0", "P1", "P2", "P3", "P4", "P5"]
      ∧ (makeClient "").Update (testLib testBug [testAck]) 101234
          { ClearNeedinfo := true, SetPriority := "wrong" }
        = ([Event.fetch testURL],
           .error (.RequestError (.errorString "More than one needinfo found")))
      ∧ (GoError.RequestError (.errorString "More than one needinfo found")).Error
        = "cannot build request: More than one needinfo found"
      ∧ ¬ Contains "cannot build request: More than one needinfo found" "invalid priority value"
      ∧ (makeClient "").Update (testLib testBug [testAck]) 101234
          { SetPriority := "wrong", DeltaTS := { sec := 63816861723 }, CheckDeltaTS := true }
        = ([Event.fetch testURL],
           .error (.ErrBugzilla (.errorString
             "likely mid-air collision: the bug has been updated at 63816858123"))) :=
  ⟨by decide, rfl, rfl, by decide, rfl⟩

/-- C12 (amended). Invalid priority is rejected: for a fetched bug and a SetPriority that
is not empty and is none of the keys P0..P5, `Update` ends in an error with
the trace of the fetch, so without a write; when the collision check and the
needinfo clear pass, the error is the one of the priority, whose message is
"invalid priority value: " followed by the supplied value. Lower-case codes
and the long labels are no keys. -/
theorem C12_invalid_priority_rejected (L : Lib) (c : Client) (id : Int) (changes : Changes)
    (tr : List Event) (bug : Bug)
    (hfetch : c.GetBugEx L id false false = (tr, .ok bug))
    (hne : changes.SetPriority ≠ "")
    (hkey : changes.SetPriority ∉ ["P0", "P1", "P2", "P3", "P4", "P5"]) :
    (∃ err, c.Update L id changes = (tr, .error err))
      ∧ writes (c.Update L id changes).1 = []
      ∧ (Client.checkDeltaTS L changes bug = none →
          needinfoStepPasses L c.Config bug changes = true →
          c.Update L id changes = (tr, .error (priorityError changes)))
      ∧ (priorityError changes).Error
          = "Error from Bugzilla: invalid priority value: " ++ changes.SetPriority
      ∧ Contains (priorityError changes).Error
          ("invalid priority value: " ++ changes.SetPriority)
      ∧ PriorityMap "p0" = none ∧ PriorityMap "P0 - Crit Sit" = none := by
  have hnone := PriorityMap_none_of_not_key hkey
  have hfail : ∃ err, c.Update L id changes = (tr, .error err) := by
    cases hd : Client.checkDeltaTS L changes bug with
    | some err => exact ⟨err, Update_of_collision hfetch hd⟩
    | none =>
      cases hb : c.buildUpdate L id changes bug with
      | error err => exact ⟨err, Update_of_build_error hfetch hd hb⟩
      | ok up =>
        obtain ⟨_, hp, _⟩ := buildUpdate_fields hb
        rcases hp with hp | hp
        · exact absurd hp hne
        · rw [hnone] at hp; simp at hp
  refine ⟨hfail, ?_, ?_, ?_, ?_, by decide, by decide⟩
  · obtain ⟨err, he⟩ := hfail
    rw [he]
    exact writes_of_fetch hfetch
  · intro hd hneed
    exact Update_of_build_error hfetch hd (buildUpdate_priority_error hne hnone hneed)
  · simp [priorityError, GoError.Error]
    rfl
  · unfold Contains
    refine ⟨"Error from Bugzilla: ".data, [], ?_⟩
    simp [priorityError, GoError.Error, String.data_append]

theorem C12_witness :
    (makeClient "").Update (testLib testBug [testAck]) 101234 { SetPriority := "wrong" }
        = ([Event.fetch testURL],
           .error (.ErrBugzilla (.errorString "invalid priority value: wrong")))
      ∧ (GoError.ErrBugzilla (.errorString "invalid priority value: wrong")).Error
        = "Error from Bugzilla: invalid priority value: wrong"
      ∧ writes ((makeClient "").Update (testLib testBug [testAck]) 101234
          { SetPriority := "wrong" }).1 = [] :=
  ⟨(C12_invalid_priority_rejected (testLib testBug [testAck]) (makeClient "") 101234
      { SetPriority := "wrong" } [Event.fetch testURL] testBug rfl (by decide)
      (by decide)).2.2.1 rfl rfl,
    by decide,
    (C12_invalid_priority_rejected (testLib testBug [testAck]) (makeClient "") 101234
      { SetPriority := "wrong" } [Event.fetch testURL] testBug rfl (by decide)
      (by decide)).2.1⟩

/-- C13. CC grouping: on every successful `Update` the CC structure of the
written wire update has, as additions, AddCc when it is not empty followed by
the user name of the account when CcMyself is set, and as removals RemoveCc
when it is not empty; the structure is absent when nothing of the three is
asked for; in the body the `cc` member is that structure, and a side that is
empty is no member of it. -/
theorem C13_cc_grouping (L : Lib) (c : Client) (id : Int) (changes : Changes)
    (r : UpdateResponse) (hsucc : (c.Update L id changes).2 = .ok r) :
    ∃ (url : String) (up : updBug), writes (c.Update L id changes).1 = [(url, up.toJson)]
      ∧ up.CC = (if changes.AddCc = "" ∧ changes.RemoveCc = "" ∧ changes.CcMyself = false
          then none
          else some
            { Add := (if changes.AddCc = "" then [] else [changes.AddCc])
                ++ (if changes.CcMyself then [c.Config.Username] else []),
              Remove := if changes.RemoveCc = "" then [] else [changes.RemoveCc] })
      ∧ up.toJson.member "cc" = up.CC.map updOp.toJson
      ∧ (∀ op, up.CC = some op →
          op.toJson.member "add"
              = (if op.Add = [] then none else some (Json.arr (op.Add.map Json.str)))
            ∧ op.toJson.member "remove"
              = (if op.Remove = [] then none else some (Json.arr (op.Remove.map Json.str))))
      ∧ (changes.CcMyself = true → c.Config.emailAddress = .ok c.Config.Username) := by
  obtain ⟨_, bug, up, url, _, _, hb, hw⟩ := Update_ok_inv hsucc
  obtain ⟨hf, _, hat⟩ := buildUpdate_fields hb
  have hcc : up.CC = ccOf c.Config changes := by rw [hf]
  refine ⟨url, up, hw, ?_, toJson_cc up, ?_, ?_⟩
  · rw [hcc]; rfl
  · intro op _
    exact ⟨updOp_toJson_add op, updOp_toJson_remove op⟩
  · intro h
    simp [Config.emailAddress, hat h]

theorem C13_witness :
    (makeClient "").Update (testLib testBug [testAck]) 101234
          { AddCc := "a@x.com", RemoveCc := "b@x.com" }
        = ([Event.fetch testURL,
            Event.put testURL (Json.obj [("ids", Json.arr [Json.num 101234]),
              ("cc", Json.obj [("add", Json.arr [Json.str "a@x.com"]),
                ("remove", Json.arr [Json.str "b@x.com"])])])], .ok testAck)
      ∧ ∃ (url : String) (up : updBug),
          writes ((makeClient "").Update (testLib testBug [testAck]) 101234
            { AddCc := "a@x.com", RemoveCc := "b@x.com" }).1 = [(url, up.toJson)]
          ∧ up.CC = some { Add := ["a@x.com"], Remove := ["b@x.com"] } := by
  refine ⟨rfl, ?_⟩
  obtain ⟨url, up, hw, hcc, _⟩ :=
    C13_cc_grouping (testLib testBug [testAck]) (makeClient "") 101234
      { AddCc := "a@x.com", RemoveCc := "b@x.com" } testAck rfl
  exact ⟨url, up, hw, hcc⟩

/-- C14. Non-email username is rejected: for a fetched bug and a user name
without "@", changes that need the address of the account (CcMyself, or
ClearNeedinfo with ClearMyNeedinfos) make `Update` end in an error with the
trace of the fetch, so without a write; the error is the one of the user name
when no earlier check fails, at once for ClearMyNeedinfos and after the
needinfo clear and the priority for CcMyself; its message has the text "Your
username doesn't look like an email address" and the user name. A user name
with "@" is the address, unchanged. -/
theorem C14_non_email_username_rejected (L : Lib) (c : Client) (id : Int) (changes : Changes)
    (tr : List Event) (bug : Bug)
    (hfetch : c.GetBugEx L id false false = (tr, .ok bug)) :
    ('@' ∉ c.Config.Username.data →
        (changes.CcMyself = true ∨ (changes.ClearNeedinfo = true ∧ changes.ClearMyNeedinfos = true) →
            (∃ err, c.Update L id changes = (tr, .error err))
              ∧ writes (c.Update L id changes).1 = [])
          ∧ (Client.checkDeltaTS L changes bug = none →
              changes.ClearNeedinfo = true ∧ changes.ClearMyNeedinfos = true →
              c.Update L id changes = (tr, .error (usernameError c.Config)))
          ∧ (Client.checkDeltaTS L changes bug = none → changes.CcMyself = true →
              needinfoStepPasses L c.Config bug changes = true →
              (changes.SetPriority = "" ∨ (PriorityMap changes.SetPriority).isSome = true) →
              c.Update L id changes = (tr, .error (usernameError c.Config))))
      ∧ (usernameError c.Config).Error
          = "Error from Bugzilla: Your username doesn\x27t look like an email address: "
            ++ c.Config.Username
      ∧ Contains (usernameError c.Config).Error
          "Your username doesn\x27t look like an email address"
      ∧ Contains (usernameError c.Config).Error c.Config.Username
      ∧ ('@' ∈ c.Config.Username.data → c.Config.emailAddress = .ok c.Config.Username) := by
  obtain ⟨hm1, hm2, hm3⟩ := usernameError_message c.Config
  refine ⟨fun hno => ⟨?_, ?_, ?_⟩, hm1, hm2, hm3, emailAddress_at⟩
  · intro hneeds
    have hfail := Update_fails_of_no_build (L := L) hfetch
      (fun up => buildUpdate_needs_email hno hneeds bug up)
    refine ⟨hfail, ?_⟩
    obtain ⟨err, he⟩ := hfail
    rw [he]
    exact writes_of_fetch hfetch
  · intro hd hclear
    exact Update_of_build_error hfetch hd
      (buildUpdate_username_clear hno hclear.2 (Or.inr hclear.1))
  · intro hd hcc hneed hprio
    exact Update_of_build_error hfetch hd (buildUpdate_username_cc hno hcc hneed hprio)

theorem C14_witness :
    '@' ∉ "user5".data
      ∧ (makeClient "user5").Update (testLib testBug [testAck]) 101234 { CcMyself := true }
        = ([Event.fetch testURL],
           .error (.ErrBugzilla (.errorString
             "Your username doesn\x27t look like an email address: user5")))
      ∧ writes ((makeClient "user5").Update (testLib testBug [testAck]) 101234
          { CcMyself := true }).1 = [] :=
  ⟨by decide,
    (C14_non_email_username_rejected (testLib testBug [testAck]) (makeClient "user5") 101234
      { CcMyself := true } [Event.fetch testURL] testBug rfl).1 (by decide) |>.2.2 rfl rfl rfl
      (Or.inl rfl),
    ((C14_non_email_username_rejected (testLib testBug [testAck]) (makeClient "user5") 101234
      { CcMyself := true } [Event.fetch testURL] testBug rfl).1 (by decide) |>.1
      (Or.inl rfl)).2⟩

/-- C15 (as stated) fails: with the user name user5 and CcMyself, `Update`
fetches the bug before it fails. -/
theorem C15_counterexample :
    '@' ∉ "user5".data
      ∧ (makeClient "user5").Update (testLib testBug [testAck]) 101234 { CcMyself := true }
        = ([Event.fetch testURL], .error (usernameError (makeClient "user5").Config))
      ∧ ((makeClient "user5").Update (testLib testBug [testAck]) 101234
          { CcMyself := true }).1 ≠ [] :=
  ⟨by decide, rfl, fun h => List.noConfusion h⟩

/-- C15 (amended). With a user name without "@" and CcMyself set, `Update`
writes nothing and does not succeed, and it fetches the bug first: whenever
the URL of the bug can be built, its first call is the fetch of that URL. -/
theorem C15_username_rejected_after_fetch (L : Lib) (c : Client) (id : Int) (changes : Changes)
    (hno : '@' ∉ c.Config.Username.data) (hcc : changes.CcMyself = true) :
    writes (c.Update L id changes).1 = []
      ∧ (∀ r, (c.Update L id changes).2 ≠ .ok r)
      ∧ (∀ url, c.getBugsURL L [id] [] = .ok url →
          ∃ rest, (c.Update L id changes).1 = Event.fetch url :: rest) := by
  have hnb : ∀ bug up, c.buildUpdate L id changes bug ≠ .ok up :=
    buildUpdate_needs_email hno (Or.inl hcc)
  obtain ⟨hw, hr⟩ := Update_of_no_build (L := L) hnb
  refine ⟨hw, hr, ?_⟩
  intro url hurl
  obtain ⟨rest1, h1⟩ := GetBugEx_trace_head false false hurl
  obtain ⟨rest2, h2⟩ := Update_trace_prefix L c id changes
  exact ⟨rest1 ++ rest2, by rw [h2, h1]; rfl⟩

theorem C15_witness :
    (makeClient "user5").getBugsURL (testLib testBug [testAck]) [101234] [] = .ok testURL
      ∧ (writes ((makeClient "user5").Update (testLib testBug [testAck]) 101234
            { CcMyself := true }).1 = []
        ∧ (∀ r, ((makeClient "user5").Update (testLib testBug [testAck]) 101234
            { CcMyself := true }).2 ≠ .ok r)
        ∧ (∀ url, (makeClient "user5").getBugsURL (testLib testBug [testAck]) [101234] []
              = .ok url →
            ∃ rest, ((makeClient "user5").Update (testLib testBug [testAck]) 101234
              { CcMyself := true }).1 = Event.fetch url :: rest)) :=
  ⟨rfl, C15_username_rejected_after_fetch (testLib testBug [testAck]) (makeClient "user5")
    101234 { CcMyself := true } (by decide) rfl⟩

/-- C16 (as stated) fails: with the user name user5 and CcMyself, the error of
`Update` is an ErrBugzilla, and no RequestError. -/
theorem C16_counterexample :
    (makeClient "user5").Update (testLib testBug [testAck]) 101234 { CcMyself := true }
        = ([Event.fetch testURL],
           .error (.ErrBugzilla (.errorString
             "Your username doesn\x27t look like an email address: user5")))
      ∧ ¬ ∃ inner, GoError.ErrBugzilla (.errorString
            "Your username doesn\x27t look like an email address: user5")
          = GoError.RequestError inner :=
  ⟨rfl, fun ⟨_, h⟩ => GoError.noConfusion h⟩

/-- C16 (amended). The failure of a user name without "@" is an ErrBugzilla:
`emailAddress` returns that kind, the kind of the collision and of the invalid
priority errors, and `Update` returns it when ClearMyNeedinfos or CcMyself
needs the address and no earlier check fails; it is no RequestError, the kind
of the ambiguous needinfo error. -/
theorem C16_username_error_kind (L : Lib) (c : Client) (id : Int) (changes : Changes)
    (tr : List Event) (bug : Bug)
    (hfetch : c.GetBugEx L id false false = (tr, .ok bug))
    (hdelta : Client.checkDeltaTS L changes bug = none)
    (hno : '@' ∉ c.Config.Username.data) :
    c.Config.emailAddress
        = .error (.ErrBugzilla (.errorString
            ("Your username doesn\x27t look like an email address: " ++ c.Config.Username)))
      ∧ (∀ inner, c.Config.emailAddress ≠ .error (.RequestError inner))
      ∧ (changes.ClearNeedinfo = true ∧ changes.ClearMyNeedinfos = true →
          ∃ inner, c.Update L id changes = (tr, .error (.ErrBugzilla inner)))
      ∧ (changes.CcMyself = true → needinfoStepPasses L c.Config bug changes = true →
          (changes.SetPriority = "" ∨ (PriorityMap changes.SetPriority).isSome = true) →
          ∃ inner, c.Update L id changes = (tr, .error (.ErrBugzilla inner)))
      ∧ (∃ inner, collisionError L bug = .ErrBugzilla inner)
      ∧ (∃ inner, priorityError changes = .ErrBugzilla inner)
      ∧ (∃ inner, ambiguousError = .RequestError inner) := by
  have he := emailAddress_no_at hno
  refine ⟨he, ?_, ?_, ?_, ⟨_, rfl⟩, ⟨_, rfl⟩, ⟨_, rfl⟩⟩
  · intro inner h
    rw [he] at h
    cases h
  · intro hclear
    exact ⟨_, Update_of_build_error hfetch hdelta
      (buildUpdate_username_clear hno hclear.2 (Or.inr hclear.1))⟩
  · intro hcc hneed hprio
    exact ⟨_, Update_of_build_error hfetch hdelta (buildUpdate_username_cc hno hcc hneed hprio)⟩

theorem C16_witness :
    '@' ∉ "user5".data
      ∧ ∃ inner, (makeClient "user5").Update (testLib testBug [testAck]) 101234
          { ClearNeedinfo := true, ClearMyNeedinfos := true }
        = ([Event.fetch testURL], .error (.ErrBugzilla inner)) :=
  ⟨by decide,
    (C16_username_error_kind (testLib testBug [testAck]) (makeClient "user5") 101234
      { ClearNeedinfo := true, ClearMyNeedinfos := true } [Event.fetch testURL] testBug
      rfl rfl (by decide)).2.2.1 ⟨rfl, rfl⟩⟩

/-- C17 at the failing inputs: an acknowledgement that decodes to no entry, or
to two, makes `Update` return an error that is a bare `fmt.Errorf` value,
wrapped in no error type of the package. -/
theorem C17_cardinality_error_untyped :
    (makeClient "").Update (testLib testBug []) 101234 {}
        = ([Event.fetch testURL,
            Event.put testURL (Json.obj [("ids", Json.arr [Json.num 101234])])],
           .error (.errorString "Got an unexpected number of update responses: 0"))
      ∧ (makeClient "").Update (testLib testBug [testAck, testAck]) 101234 {}
        = ([Event.fetch testURL,
            Event.put testURL (Json.obj [("ids", Json.arr [Json.num 101234])])],
           .error (.errorString "Got an unexpected number of update responses: 2"))
      ∧ (∀ inner, GoError.errorString "Got an unexpected number of update responses: 0"
          ≠ GoError.ConnectionError inner)
      ∧ (∀ inner, GoError.errorString "Got an unexpected number of update responses: 0"
          ≠ GoError.DecodeErrror inner) :=
  ⟨rfl, rfl, fun _ h => GoError.noConfusion h, fun _ h => GoError.noConfusion h⟩

/-- C18 at the failing input: the account user3 has the two needinfos 266294
and 266299 on the bug, and `Update` with ClearNeedinfo and ClearMyNeedinfos
ends in the error of an ambiguous clear and writes nothing. -/
theorem C18_clear_my_needinfos_ambiguous :
    '@' ∈ "user3@foobarcorp.example.com".data
      ∧ (needinfoFlagsOf (testLib testBug [testAck]) testBug
            "user3@foobarcorp.example.com").map Flag.ID = [266294, 266299]
      ∧ (makeClient "user3@foobarcorp.example.com").Update (testLib testBug [testAck]) 101234
          { ClearNeedinfo := true, ClearMyNeedinfos := true }
        = ([Event.fetch testURL],
           .error (.RequestError (.errorString "More than one needinfo found"))) :=
  ⟨by decide, by decide, rfl⟩

/-- C19. Scalar field sets: on every successful `Update`, each of url,
assigned_to, summary, whiteboard, status and resolution of the written wire
update holds the value of SetURL, SetAssignee, SetDescription, SetWhiteboard,
SetStatus and SetResolution when that value is not empty and is absent when it
is empty, in the structure and as member of the body; no string field of the
wire update is present with the empty string. -/
theorem C19_scalar_field_sets (L : Lib) (c : Client) (id : Int) (changes : Changes)
    (r : UpdateResponse) (hsucc : (c.Update L id changes).2 = .ok r) :
    ∃ (url : String) (up : updBug), writes (c.Update L id changes).1 = [(url, up.toJson)]
      ∧ up.URL = (if changes.SetURL = "" then none else some changes.SetURL)
      ∧ up.AssignedTo = (if changes.SetAssignee = "" then none else some changes.SetAssignee)
      ∧ up.Summary = (if changes.SetDescription = "" then none else some changes.SetDescription)
      ∧ up.Whiteboard = (if changes.SetWhiteboard = "" then none else some changes.SetWhiteboard)
      ∧ up.Status = (if changes.SetStatus = "" then none else some changes.SetStatus)
      ∧ up.Resolution = (if changes.SetResolution = "" then none else some changes.SetResolution)
      ∧ up.toJson.member "url" = up.URL.map Json.str
      ∧ up.toJson.member "assigned_to" = up.AssignedTo.map Json.str
      ∧ up.toJson.member "summary" = up.Summary.map Json.str
      ∧ up.toJson.member "whiteboard" = up.Whiteboard.map Json.str
      ∧ up.toJson.member "status" = up.Status.map Json.str
      ∧ up.toJson.member "resolution" = up.Resolution.map Json.str
      ∧ ∀ field ∈ [up.AssignedTo, up.Classification, up.Component, up.OpSys, up.Platform,
          up.Priority, up.Product, up.QAContact, up.Resolution, up.Severity, up.Status,
          up.Summary, up.TargetMilestone, up.URL, up.Version, up.Whiteboard],
          field ≠ some "" := by
  obtain ⟨_, bug, up, url, _, _, hb, hw⟩ := Update_ok_inv hsucc
  obtain ⟨hf, hp, _⟩ := buildUpdate_fields hb
  have h1 : up.URL = optStr changes.SetURL := by rw [hf]
  have h2 : up.AssignedTo = optStr changes.SetAssignee := by rw [hf]
  have h3 : up.Summary = optStr changes.SetDescription := by rw [hf]
  have h4 : up.Whiteboard = optStr changes.SetWhiteboard := by rw [hf]
  have h5 : up.Status = optStr changes.SetStatus := by rw [hf]
  have h6 : up.Resolution = optStr changes.SetResolution := by rw [hf]
  have h7 : up.Priority = priorityOf changes := by rw [hf]
  have n1 : up.Classification = none := by rw [hf]
  have n2 : up.Component = none := by rw [hf]
  have n3 : up.OpSys = none := by rw [hf]
  have n4 : up.Platform = none := by rw [hf]
  have n5 : up.Product = none := by rw [hf]
  have n6 : up.QAContact = none := by rw [hf]
  have n7 : up.Severity = none := by rw [hf]
  have n8 : up.TargetMilestone = none := by rw [hf]
  have n9 : up.Version = none := by rw [hf]
  refine ⟨url, up, hw, h1, h2, h3, h4, h5, h6, toJson_url up, toJson_assigned_to up,
    toJson_summary up, toJson_whiteboard up, toJson_status up, toJson_resolution up, ?_⟩
  intro field hfield
  simp only [List.mem_cons, List.mem_singleton, List.not_mem_nil, or_false] at hfield
  rw [h1, h2, h3, h4, h5, h6, h7, n1, n2, n3, n4, n5, n6, n7, n8, n9] at hfield
  rcases hfield with h | h | h | h | h | h | h | h | h | h | h | h | h | h | h | h
  all_goals first
    | (rw [h]; exact optStr_ne_empty _)
    | (rw [h]; exact priorityOf_ne_empty hp)
    | (rw [h]; simp)

theorem C19_witness :
    (makeClient "").Update (testLib testBug [testAck]) 101234 { SetURL := "http://foobar.com/1/2" }
        = ([Event.fetch testURL,
            Event.put testURL (Json.obj [("ids", Json.arr [Json.num 101234]),
              ("url", Json.str "http://foobar.com/1/2")])], .ok testAck)
      ∧ ∃ (url : String) (up : updBug),
          writes ((makeClient "").Update (testLib testBug [testAck]) 101234
            { SetURL := "http://foobar.com/1/2" }).1 = [(url, up.toJson)]
          ∧ up.URL = some "http://foobar.com/1/2"
          ∧ up.AssignedTo = none := by
  refine ⟨rfl, ?_⟩
  obtain ⟨url, up, hw, h1, h2, _⟩ :=
    C19_scalar_field_sets (testLib testBug [testAck]) (makeClient "") 101234
      { SetURL := "http://foobar.com/1/2" } testAck rfl
  exact ⟨url, up, hw, h1, h2⟩

/-- C20. Comment: on every successful `Update` the comment of the written wire
update is present exactly when AddComment is not empty, and then has AddComment
as body and CommentIsPrivate as privacy; the `comment` member of the body is
that comment; with an empty AddComment the value of CommentIsPrivate changes
nothing of what `Update` does. -/
theorem C20_comment (L : Lib) (c : Client) (id : Int) (changes : Changes)
    (r : UpdateResponse) (hsucc : (c.Update L id changes).2 = .ok r) :
    (∃ (url : String) (up : updBug), writes (c.Update L id changes).1 = [(url, up.toJson)]
        ∧ up.Comment = (if changes.AddComment = "" then none
            else some { Body := changes.AddComment, IsPrivate := changes.CommentIsPrivate })
        ∧ (up.Comment.isSome = true ↔ changes.AddComment ≠ "")
        ∧ up.toJson.member "comment" = up.Comment.map commentChange.toJson)
      ∧ (changes.AddComment = "" →
          ∀ b, c.Update L id { changes with CommentIsPrivate := b } = c.Update L id changes) := by
  obtain ⟨_, bug, up, url, _, _, hb, hw⟩ := Update_ok_inv hsucc
  obtain ⟨hf, _, _⟩ := buildUpdate_fields hb
  have hc : up.Comment = commentOf changes := by rw [hf]
  refine ⟨⟨url, up, hw, ?_, ?_, toJson_comment up⟩, fun h b => Update_CommentIsPrivate_ignored h b⟩
  · rw [hc]; rfl
  · rw [hc]
    unfold commentOf
    by_cases h : changes.AddComment = "" <;> simp [h]

theorem C20_witness :
    (makeClient "").Update (testLib testBug [testAck]) 101234
          { AddComment := "this is a comment", CommentIsPrivate := true }
        = ([Event.fetch testURL,
            Event.put testURL (Json.obj [("ids", Json.arr [Json.num 101234]),
              ("comment", Json.obj [("body", Json.str "this is a comment"),
                ("is_private", Json.bool true)])])], .ok testAck)
      ∧ (makeClient "").Update (testLib testBug [testAck]) 101234 { CommentIsPrivate := true }
        = ([Event.fetch testURL,
            Event.put testURL (Json.obj [("ids", Json.arr [Json.num 101234])])], .ok testAck)
      ∧ ∃ (url : String) (up : updBug),
          writes ((makeClient "").Update (testLib testBug [testAck]) 101234
            { AddComment := "this is a comment", CommentIsPrivate := true }).1
            = [(url, up.toJson)]
          ∧ up.Comment = some { Body := "this is a comment", IsPrivate := true } := by
  refine ⟨rfl, rfl, ?_⟩
  obtain ⟨⟨url, up, hw, hc, _⟩, _⟩ :=
    C20_comment (testLib testBug [testAck]) (makeClient "") 101234
      { AddComment := "this is a comment", CommentIsPrivate := true } testAck rfl
  exact ⟨url, up, hw, hc⟩

/-- C21. Duplicate marker: on every successful `Update` the duplicate of the
written wire update is SetDuplicate; in the body the member `dupe_of` is that
number when SetDuplicate is not zero and is absent when it is zero. -/
theorem C21_duplicate_marker (L : Lib) (c : Client) (id : Int) (changes : Changes)
    (r : UpdateResponse) (hsucc : (c.Update L id changes).2 = .ok r) :
    ∃ (url : String) (up : updBug), writes (c.Update L id changes).1 = [(url, up.toJson)]
      ∧ up.DupeOf = changes.SetDuplicate
      ∧ up.toJson.member "dupe_of"
        = (if changes.SetDuplicate = 0 then none else some (Json.num changes.SetDuplicate)) := by
  obtain ⟨_, bug, up, url, _, _, hb, hw⟩ := Update_ok_inv hsucc
  obtain ⟨hf, _, _⟩ := buildUpdate_fields hb
  have hd : up.DupeOf = changes.SetDuplicate := by rw [hf]
  refine ⟨url, up, hw, hd, ?_⟩
  rw [toJson_dupe_of, hd]

theorem C21_witness :
    (makeClient "").Update (testLib testBug [testAck]) 101234 { SetDuplicate := 1047068 }
        = ([Event.fetch testURL,
            Event.put testURL (Json.obj [("ids", Json.arr [Json.num 101234]),
              ("dupe_of", Json.num 1047068)])], .ok testAck)
      ∧ ∃ (url : String) (up : updBug),
          writes ((makeClient "").Update (testLib testBug [testAck]) 101234
            { SetDuplicate := 1047068 }).1 = [(url, up.toJson)]
          ∧ up.DupeOf = 1047068
          ∧ up.toJson.member "dupe_of" = some (Json.num 1047068) :=
  ⟨rfl, C21_duplicate_marker (testLib testBug [testAck]) (makeClient "") 101234
    { SetDuplicate := 1047068 } testAck rfl⟩

/-- C22. Fetch failures surface unchanged: when the fetch of the bug returns
the error e, `Update` returns that same error value, not wrapped again, with
the calls of the fetch only; it returns no response and writes nothing. -/
theorem C22_fetch_failure_unchanged (L : Lib) (c : Client) (id : Int) (changes : Changes)
    (tr : List Event) (e : GoError)
    (hfetch : c.GetBugEx L id false false = (tr, .error e)) :
    c.Update L id changes = (tr, .error e)
      ∧ (∀ r, (c.Update L id changes).2 ≠ .ok r)
      ∧ writes (c.Update L id changes).1 = [] := by
  have hupd : c.Update L id changes = (tr, .error e) := Update_of_fetch_error hfetch
  refine ⟨hupd, ?_, ?_⟩
  · intro r hr
    rw [hupd] at hr
    cases hr
  · have hw := writes_GetBugEx L c id false false
    rw [hfetch] at hw
    rw [hupd]
    exact hw

theorem C22_witness :
    closedClient.GetBugEx (testLib testBug [testAck]) 101234 false false
        = ([Event.fetch testURL], .error (.ConnectionError (.errorString "EOF")))
      ∧ (closedClient.Update (testLib testBug [testAck]) 101234 { AddComment := "Some comment" }
          = ([Event.fetch testURL], .error (.ConnectionError (.errorString "EOF")))
        ∧ (∀ r, (closedClient.Update (testLib testBug [testAck]) 101234
            { AddComment := "Some comment" }).2 ≠ .ok r)
        ∧ writes (closedClient.Update (testLib testBug [testAck]) 101234
            { AddComment := "Some comment" }).1 = []) :=
  ⟨rfl, C22_fetch_failure_unchanged (testLib testBug [testAck]) closedClient 101234
    { AddComment := "Some comment" } [Event.fetch testURL]
    (.ConnectionError (.errorString "EOF")) rfl⟩

/-- C23 (as stated) fails: a response of status 500, or of status 200, whose
body cannot be read gives a ConnectionError: no BugzillaError with the status
text for the first, no body for the second. -/
theorem C23_counterexample :
    Client.collect (testLib testBug []) (.response 500 [] (some (.errorString "unexpected EOF")))
        = .error (.ConnectionError (.errorString "unexpected EOF"))
      ∧ (¬ ∃ inner, GoError.ConnectionError (.errorString "unexpected EOF")
          = GoError.BugzillaError inner)
      ∧ Client.collect (testLib testBug []) (.response 200 [] (some (.errorString "unexpected EOF")))
        = .error (.ConnectionError (.errorString "unexpected EOF")) :=
  ⟨rfl, fun ⟨_, h⟩ => GoError.noConfusion h, rfl⟩

/-- C23 (amended). For a response whose body is read without error, `read`
being what is read (the first 10 MiB of the body): with a status outside
200..299 `collect` returns no body and a BugzillaError, whose inner message is
"[code] message" when the body decodes as a structured error with a code and
a message that has no percent sign, and is the status text (without percent
sign) when the body does not decode or decodes without message; with a status
in 200..299 it returns what was read and no error. A response whose body
cannot be read gives a ConnectionError around the error of the read. -/
theorem C23_service_errors (L : Lib) (status : Int) (body : Bytes) (bodyErr : Option GoError)
    (read : Bytes) (hread : readAllLimited body bodyErr = .ok read) :
    read = body.take (10 * 1024 * 1024)
      ∧ (¬ (200 ≤ status ∧ status ≤ 299) →
          (∀ res code msg, L.unmarshalError read = .ok res → res.Code = some code →
              res.Message = some msg → '%' ∉ msg.data →
              Client.collect L (.response status body bodyErr)
                = .error (.BugzillaError (.errorString ("[" ++ toString code ++ "] " ++ msg))))
          ∧ ((∀ res msg, L.unmarshalError read = .ok res → res.Message ≠ some msg) →
              '%' ∉ (L.StatusText status).data →
              Client.collect L (.response status body bodyErr)
                = .error (.BugzillaError (.errorString (L.StatusText status)))))
      ∧ (200 ≤ status ∧ status ≤ 299 →
          Client.collect L (.response status body bodyErr) = .ok read)
      ∧ (∀ body1 err e, readAllLimited body1 err = .error e →
          Client.collect L (.response status body1 err) = .error (.ConnectionError e)) := by
  refine ⟨readAllLimited_ok hread, fun hs => ⟨?_, ?_⟩, fun hs => collect_success hread hs,
    fun _ _ _ h => collect_read_error h⟩
  · intro res code msg hres hcode hmsg hpc
    rw [collect_structured hread hs hres hcode hmsg,
      Errorf_plain L _ (structured_no_percent code msg hpc)]
  · intro hres hpc
    rw [collect_status_text hread hs hres, Errorf_plain L _ hpc]

theorem C23_witness :
    Client.collect (testLib testBug []) (.response 401 ("Unauthorized\n".data.map Char.toNat) none)
        = .error (.BugzillaError (.errorString "Unauthorized"))
      ∧ Client.collect (errorLib (.ok sampleError)) (.response 400 [] none)
        = .error (.BugzillaError
            (.errorString "[102] You are not authorized to access bug #1171184."))
      ∧ Client.collect (testLib testBug []) (.response 200 [1, 2, 3] none) = .ok [1, 2, 3] :=
  ⟨((C23_service_errors (testLib testBug []) 401 ("Unauthorized\n".data.map Char.toNat) none
        ("Unauthorized\n".data.map Char.toNat) rfl).2.1 (by decide)).2
      (fun res msg h => by cases h) (by decide),
    ((C23_service_errors (errorLib (.ok sampleError)) 400 [] none [] rfl).2.1 (by decide)).1
      sampleError 102 "You are not authorized to access bug #1171184." rfl rfl rfl (by decide),
    (C23_service_errors (testLib testBug []) 200 [1, 2, 3] none [1, 2, 3] rfl).2.2.1
      (by decide)⟩

/-- C24. The needinfo clear runs only on request: with RemoveNeedinfo empty
and ClearNeedinfo unset the step returns the update as it got it, whatever
ClearMyNeedinfos, ClearAllNeedinfos and the user name are; the builder is the
same function for every value of the two flags; a built wire update has the
requested needinfo at most and no entry of status `X`; when the later steps
pass, `Update` writes that update; and ClearMyNeedinfos alone builds the update
of the ID alone, for every user name. -/
theorem C24_clear_only_on_request (L : Lib) (c : Client) (id : Int) (changes : Changes)
    (tr : List Event) (bug : Bug)
    (hfetch : c.GetBugEx L id false false = (tr, .ok bug))
    (hdelta : Client.checkDeltaTS L changes bug = none)
    (hremove : changes.RemoveNeedinfo = "")
    (hclear : changes.ClearNeedinfo = false) :
    (∀ cfg up0, stepClearNeedinfo L cfg bug changes up0 = .ok up0)
      ∧ (∀ a b, c.buildUpdate L id { changes with ClearMyNeedinfos := a, ClearAllNeedinfos := b } bug
          = c.buildUpdate L id changes bug)
      ∧ (∀ up, c.buildUpdate L id changes bug = .ok up →
          up.Flags = requestedEntries L bug changes ∧ clearEntriesOf up = [])
      ∧ (laterStepsPass c.Config changes →
          ∃ url up, c.buildUpdate L id changes bug = .ok up
            ∧ writes (c.Update L id changes).1 = [(url, up.toJson)])
      ∧ c.buildUpdate L id { ClearMyNeedinfos := true } bug = .ok { Ids := [id] } := by
  have hskip : ∀ cfg up0, stepClearNeedinfo L cfg bug changes up0 = .ok up0 :=
    fun cfg up0 => stepClearNeedinfo_skip cfg bug changes hremove hclear up0
  refine ⟨hskip, ?_, ?_, ?_, ?_⟩
  · intro a b
    have h1 : ∀ up0, stepClearNeedinfo L c.Config bug
        { changes with ClearMyNeedinfos := a, ClearAllNeedinfos := b } up0 = .ok up0 :=
      fun up0 => stepClearNeedinfo_skip c.Config bug
        { changes with ClearMyNeedinfos := a, ClearAllNeedinfos := b } hremove hclear up0
    unfold Client.buildUpdate
    simp only [h1, hskip]
    rfl
  · intro up hb
    obtain ⟨ids, hflags, hcase⟩ := buildUpdate_Flags hb
    have hnil : ids = [] := by
      rcases hcase with ⟨_, _, h⟩ | ⟨hreq, _⟩
      · exact h
      · rcases hreq with h | h
        · exact absurd hremove h
        · rw [hclear] at h; cases h
    subst hnil
    have hf : up.Flags = requestedEntries L bug changes := by simpa using hflags
    refine ⟨hf, ?_⟩
    rw [clearEntriesOf_eq hflags]
    rfl
  · intro hlater
    obtain ⟨up, hb, _⟩ := buildUpdate_of_clear
      (hskip c.Config (stepSetNeedinfo L bug changes (stepComment changes { Ids := [id] }))) hlater
    obtain ⟨url, _, hw⟩ := writes_of_build_ok hfetch hdelta hb
    exact ⟨url, up, hb, hw⟩
  · simp [Client.buildUpdate, newBugUpdate, stepComment, stepSetNeedinfo, stepClearNeedinfo,
      stepFields, stepPriority, stepCc, stepStatus]

theorem C24_witness :
    '@' ∉ "user5".data
      ∧ (makeClient "user5").Update (testLib testBug [testAck]) 101234
          { ClearMyNeedinfos := true, ClearAllNeedinfos := true }
        = ([Event.fetch testURL,
            Event.put testURL (Json.obj [("ids", Json.arr [Json.num 101234])])], .ok testAck)
      ∧ (makeClient "user5").buildUpdate (testLib testBug [testAck]) 101234
          { ClearMyNeedinfos := true } testBug
        = .ok { Ids := [101234] } :=
  ⟨by decide, rfl,
    (C24_clear_only_on_request (testLib testBug [testAck]) (makeClient "user5") 101234
      { ClearMyNeedinfos := true, ClearAllNeedinfos := true } [Event.fetch testURL] testBug
      rfl rfl rfl rfl).2.2.2.2⟩

/-- C25. One bug per update: every write of `Update` is its only write, and
its body is the document of a wire update whose list of IDs is the ID the
caller gave alone, whatever the ID of the fetched bug; the member `ids` of the
body is that one number. -/
theorem C25_one_bug_per_update (L : Lib) (c : Client) (id : Int) (changes : Changes)
    (url : String) (body : Json)
    (hwrite : (url, body) ∈ writes (c.Update L id changes).1) :
    writes (c.Update L id changes).1 = [(url, body)]
      ∧ body.member "ids" = some (Json.arr [Json.num id])
      ∧ ∃ tr bug up, c.GetBugEx L id false false = (tr, .ok bug)
          ∧ c.buildUpdate L id changes bug = .ok up
          ∧ body = up.toJson
          ∧ up.Ids = [id] := by
  obtain ⟨tr, bug, up, hg, _, hb, hw, hbody⟩ := Update_writes_inv hwrite
  obtain ⟨hf, _, _⟩ := buildUpdate_fields hb
  have hids : up.Ids = [id] := by rw [hf]
  simp only [] at hbody
  refine ⟨hw, ?_, tr, bug, up, hg, hb, hbody, hids⟩
  rw [hbody, toJson_ids, hids]
  rfl

theorem C25_witness :
    testBug.ID = 1047068
      ∧ (writes ((makeClient "").Update (testLib testBug [testAck]) 101234
            { SetNeedinfo := "user@foobar.com" }).1
          = [(testURL, Json.obj [("ids", Json.arr [Json.num 101234]),
              ("flags", Json.arr [Json.obj [("name", Json.str "needinfo"),
                ("status", Json.str "?"), ("requestee", Json.str "user@foobar.com"),
                ("new", Json.bool true)]])])]
        ∧ (Json.obj [("ids", Json.arr [Json.num 101234]),
              ("flags", Json.arr [Json.obj [("name", Json.str "needinfo"),
                ("status", Json.str "?"), ("requestee", Json.str "user@foobar.com"),
                ("new", Json.bool true)]])]).member "ids" = some (Json.arr [Json.num 101234])
        ∧ ∃ tr bug up, (makeClient "").GetBugEx (testLib testBug [testAck]) 101234 false false
              = (tr, .ok bug)
            ∧ (makeClient "").buildUpdate (testLib testBug [testAck]) 101234
                { SetNeedinfo := "user@foobar.com" } bug = .ok up
            ∧ Json.obj [("ids", Json.arr [Json.num 101234]),
                ("flags", Json.arr [Json.obj [("name", Json.str "needinfo"),
                  ("status", Json.str "?"), ("requestee", Json.str "user@foobar.com"),
                  ("new", Json.bool true)]])] = up.toJson
            ∧ up.Ids = [101234]) :=
  ⟨rfl, C25_one_bug_per_update (testLib testBug [testAck]) (makeClient "") 101234
    { SetNeedinfo := "user@foobar.com" } testURL _
    (by
      rw [show writes ((makeClient "").Update (testLib testBug [testAck]) 101234
            { SetNeedinfo := "user@foobar.com" }).1
          = [(testURL, Json.obj [("ids", Json.arr [Json.num 101234]),
              ("flags", Json.arr [Json.obj [("name", Json.str "needinfo"),
                ("status", Json.str "?"), ("requestee", Json.str "user@foobar.com"),
                ("new", Json.bool true)]])])] from rfl]
      exact List.mem_singleton.2 rfl)⟩

/-- C26 at the failing input: when the response of the fetch decodes to an
empty list of bugs, `GetBugEx` indexes the list out of range and faults; so
does `Update`. -/
theorem C26_GetBugEx_empty_faults :
    Client.decodeBugs noBugsLib [] = .ok []
      ∧ (makeClient "").GetBugEx noBugsLib 101234 false false
        = ([Event.fetch testURL], .panic "index out of range [0] with length 0")
      ∧ ((makeClient "").GetBug noBugsLib 101234).2
        = .panic "index out of range [0] with length 0"
      ∧ (makeClient "").Update noBugsLib 101234 {}
        = ([Event.fetch testURL], .panic "index out of range [0] with length 0") :=
  ⟨rfl, rfl, rfl, rfl⟩

/-- C27 at the failing input: an error body that decodes with a message and
without a code makes `attemptDecodingError` dereference the nil code and
fault; so does `collect` on a response of status 400 with that body. -/
theorem C27_attemptDecodingError_faults :
    Client.attemptDecodingError (errorLib (.ok { Message := some "Access denied" })) []
        = .panic "invalid memory address or nil pointer dereference"
      ∧ Client.collect (errorLib (.ok { Message := some "Access denied" }))
          (.response 400 [] none)
        = .panic "invalid memory address or nil pointer dereference" :=
  ⟨rfl, rfl⟩

/-- C28. Validation order is fixed: for a fetched bug, an error of the
collision check is what `Update` returns, whatever the changes; when that
check passes, an error of the needinfo clear (the user name for
ClearMyNeedinfos, or the ambiguous clear) is returned, whatever the priority
and CcMyself; when the clear passes too, a priority that is no key gives the
error of the priority, whatever CcMyself; and only when the priority passes
does CcMyself give the error of the user name. Each time nothing is written. -/
theorem C28_validation_order (L : Lib) (c : Client) (id : Int) (changes : Changes)
    (tr : List Event) (bug : Bug)
    (hfetch : c.GetBugEx L id false false = (tr, .ok bug)) :
    (∀ e, Client.checkDeltaTS L changes bug = some e →
        e = collisionError L bug ∧ c.Update L id changes = (tr, .error e))
      ∧ (Client.checkDeltaTS L changes bug = none →
          (∀ e, stepClearNeedinfo L c.Config bug changes {} = .error e →
              (e = usernameError c.Config ∨ e = ambiguousError)
                ∧ c.Update L id changes = (tr, .error e))
          ∧ (needinfoStepPasses L c.Config bug changes = true →
              (changes.SetPriority ≠ "" → PriorityMap changes.SetPriority = none →
                  c.Update L id changes = (tr, .error (priorityError changes)))
              ∧ ((changes.SetPriority = "" ∨ (PriorityMap changes.SetPriority).isSome = true) →
                  changes.CcMyself = true → '@' ∉ c.Config.Username.data →
                  c.Update L id changes = (tr, .error (usernameError c.Config)))))
      ∧ writes tr = [] := by
  refine ⟨?_, fun hd => ⟨?_, fun hneed => ⟨?_, ?_⟩⟩, writes_of_fetch hfetch⟩
  · intro e he
    refine ⟨?_, Update_of_collision hfetch he⟩
    rw [checkDeltaTS_eq] at he
    split at he
    · cases he; rfl
    · cases he
  · intro e he
    refine ⟨stepClearNeedinfo_error he, ?_⟩
    exact Update_of_build_error hfetch hd
      (buildUpdate_clear_error (stepClearNeedinfo_error_indep he _))
  · intro hne hnone
    exact Update_of_build_error hfetch hd (buildUpdate_priority_error hne hnone hneed)
  · intro hprio hcc hno
    exact Update_of_build_error hfetch hd (buildUpdate_username_cc hno hcc hneed hprio)

theorem C28_witness :
    (makeClient "user5").Update (testLib testBug [testAck]) 101234
          { ClearNeedinfo := true, SetPriority := "wrong", CcMyself := true,
            DeltaTS := { sec := 63816861723 }, CheckDeltaTS := true }
        = ([Event.fetch testURL], .error (collisionError (testLib testBug [testAck]) testBug))
      ∧ (makeClient "user5").Update (testLib testBug [testAck]) 101234
          { ClearNeedinfo := true, SetPriority := "wrong", CcMyself := true }
        = ([Event.fetch testURL], .error ambiguousError)
      ∧ (makeClient "user5").Update (testLib testBug [testAck]) 101234
          { SetPriority := "wrong", CcMyself := true }
        = ([Event.fetch testURL], .error (priorityError { SetPriority := "wrong" }))
      ∧ (makeClient "user5").Update (testLib testBug [testAck]) 101234
          { SetPriority := "P1", CcMyself := true }
        = ([Event.fetch testURL], .error (usernameError (makeClient "user5").Config)) :=
  ⟨((C28_validation_order (testLib testBug [testAck]) (makeClient "user5") 101234
      { ClearNeedinfo := true, SetPriority := "wrong", CcMyself := true,
        DeltaTS := { sec := 63816861723 }, CheckDeltaTS := true }
      [Event.fetch testURL] testBug rfl).1 _ rfl).2,
    (((C28_validation_order (testLib testBug [testAck]) (makeClient "user5") 101234
      { ClearNeedinfo := true, SetPriority := "wrong", CcMyself := true }
      [Event.fetch testURL] testBug rfl).2.1 rfl).1 _ rfl).2,
    (((C28_validation_order (testLib testBug [testAck]) (makeClient "user5") 101234
      { SetPriority := "wrong", CcMyself := true }
      [Event.fetch testURL] testBug rfl).2.1 rfl).2 rfl).1 (by decide) rfl,
    (((C28_validation_order (testLib testBug [testAck]) (makeClient "user5") 101234
      { SetPriority := "P1", CcMyself := true }
      [Event.fetch testURL] testBug rfl).2.1 rfl).2 rfl).2 (Or.inr rfl) rfl (by decide)⟩

/-- C29. Set and clear are computed apart, both from the fetched bug: when
`Update` succeeds it writes one wire update whose flag list is the new needinfo
entry, there exactly when SetNeedinfo is not empty and the bug has no needinfo
flag for it, followed by one clear entry for each flag the clear selects, in
the order of the flags of the bug; with SetNeedinfo equal to RemoveNeedinfo on
a bug that has a needinfo for it, the list holds the clear entries only. -/
theorem C29_set_and_clear_independent (L : Lib) (c : Client) (id : Int) (changes : Changes)
    (tr : List Event) (bug : Bug) (r : UpdateResponse)
    (hfetch : c.GetBugEx L id false false = (tr, .ok bug))
    (hsucc : (c.Update L id changes).2 = .ok r) :
    ∃ (url : String) (up : updBug),
      writes (c.Update L id changes).1 = [(url, up.toJson)]
        ∧ c.buildUpdate L id changes bug = .ok up
        ∧ up.Flags
            = (if changes.SetNeedinfo ≠ "" ∧ needinfoFlagsOf L bug changes.SetNeedinfo = []
                then [newNeedinfo changes.SetNeedinfo] else [])
              ++ (clearedFlags L c.Config bug changes).map (fun f => clearEntry f.ID)
        ∧ (clearedFlags L c.Config bug changes).Sublist bug.Flags
        ∧ (changes.SetNeedinfo = changes.RemoveNeedinfo →
            needinfoFlagsOf L bug changes.SetNeedinfo ≠ [] →
            up.Flags = (clearedFlags L c.Config bug changes).map (fun f => clearEntry f.ID)
              ∧ ∀ e ∈ up.Flags, e.New = false ∧ e.Status = "X") := by
  obtain ⟨tr1, bug1, up, url, hg, _, hb, hw⟩ := Update_ok_inv hsucc
  rw [hfetch] at hg
  cases hg
  have hflags := buildUpdate_cleared hb
  rw [requestedEntries_eq] at hflags
  refine ⟨url, up, hw, hb, hflags, clearedFlags_sublist _ _ _, ?_⟩
  intro _ hhas
  have hno : ¬ (changes.SetNeedinfo ≠ "" ∧ needinfoFlagsOf L bug changes.SetNeedinfo = []) :=
    fun h => hhas h.2
  rw [if_neg hno, List.nil_append] at hflags
  refine ⟨hflags, ?_⟩
  intro e he
  rw [hflags] at he
  obtain ⟨f, _, hf⟩ := List.mem_map.1 he
  subst hf
  exact ⟨rfl, rfl⟩

theorem C29_witness :
    (∃ (url : String) (up : updBug),
      writes ((makeClient "user5").Update (testLib testBug [testAck]) 101234
          { SetNeedinfo := "user3@foobarcorp.example.com",
            RemoveNeedinfo := "user3@foobarcorp.example.com" }).1 = [(url, up.toJson)]
        ∧ up.Flags = [clearEntry 266294, clearEntry 266299])
      ∧ ∃ (url : String) (up : updBug),
        writes ((makeClient "user5").Update (testLib accentBug [testAck]) 101234
            { SetNeedinfo := "é@x.com", RemoveNeedinfo := "é@x.com" }).1 = [(url, up.toJson)]
          ∧ up.Flags = [clearEntry 1] := by
  obtain ⟨url, up, hw, _, _, _, h⟩ :=
    C29_set_and_clear_independent (testLib testBug [testAck]) (makeClient "user5") 101234
      { SetNeedinfo := "user3@foobarcorp.example.com",
        RemoveNeedinfo := "user3@foobarcorp.example.com" }
      [Event.fetch testURL] testBug testAck rfl rfl
  obtain ⟨url1, up1, hw1, _, _, _, h1⟩ :=
    C29_set_and_clear_independent (testLib accentBug [testAck]) (makeClient "user5") 101234
      { SetNeedinfo := "é@x.com", RemoveNeedinfo := "é@x.com" }
      [Event.fetch testURL] accentBug testAck rfl rfl
  exact ⟨⟨url, up, hw, (h rfl (by decide)).1.trans (by decide)⟩,
    url1, up1, hw1, (h1 rfl (by decide)).1.trans (by decide)⟩

end Bugzilla
